import Mathlib

/-!
Verification of the `patch_makefile` routine of `patch_exim_makefile.py`.

The script reads `<build_dir>/Local/Makefile` as a list of lines, walks the
list once, and for each line applies four checks in order:

* a line starting with `CFLAGS=` (while the `cflags` variable is truthy) is
  replaced by `line.rstrip() + ' ' + cflags.strip() + '\n'`, and `cflags` is
  set to `None`;
* a line starting with `EXTRALIBS=` (while `extralibs` is truthy) is replaced
  by `line.rstrip() + ' ' + extralibs + '\n'`, and `extralibs` is set to `None`;
* a line starting with `LOCAL_SCAN_SOURCE=` is replaced by
  `'LOCAL_SCAN_SOURCE=' + source + '\n'`, and `source` is set to `None`
  (a second such line therefore raises a `TypeError`, `str + None`);
* a line starting with `LOCAL_SCAN_HAS_OPTIONS=` is replaced by
  `'LOCAL_SCAN_HAS_OPTIONS=yes\n'`, and `has_options` is set to `False`.

Afterwards each still-truthy variable is appended as a fresh line, the joined
text is written back to the same path, and a symlink is created (which fails
if the destination already exists).

Python strings are modelled as `List Char`; `rstrip`/`strip`/`startswith`
follow Python's semantics on the whitespace set ` \t\n\r\x0b\x0c`.
-/

/-- Python strings are modelled as lists of characters. -/
abbrev PyStr := List Char

/-- A string literal, as a `PyStr`. -/
def lit (s : String) : PyStr := s.data

/-- Python's whitespace set for `str.strip`/`str.rstrip`. -/
def pyWs (c : Char) : Bool :=
  c == ' ' || c == '\t' || c == '\n' || c == '\r' || c == '\u000b' || c == '\u000c'

/-- Python `s.rstrip()`: drop trailing whitespace. -/
def rstrip (l : PyStr) : PyStr := (l.reverse.dropWhile pyWs).reverse

/-- Python `s.lstrip()`: drop leading whitespace. -/
def lstrip (l : PyStr) : PyStr := l.dropWhile pyWs

/-- Python `s.strip()`: drop whitespace on both ends. -/
def strip (l : PyStr) : PyStr := rstrip (lstrip l)

/-- Python `s.startswith(k)`. -/
def startswith (k l : PyStr) : Bool := List.isPrefixOf k l

/-- Python truthiness of an optional string: `None` and `''` are falsy. -/
def alive : Option PyStr → Bool
  | none => false
  | some c => !c.isEmpty

/-- The mutable variables of the scan loop in `patch_makefile`
    (`cflags`, `extralibs`, `source`, `has_options`); `none` models
    Python `None`. -/
structure LoopState where
  cflags : Option PyStr
  extralibs : Option PyStr
  source : Option PyStr
  has_options : Bool
deriving DecidableEq

/-- The only exception the in-memory part of the loop can raise:
    `'LOCAL_SCAN_SOURCE=' + None` on a duplicated `LOCAL_SCAN_SOURCE=` line. -/
inductive PyError
  | typeError
deriving DecidableEq

/-- Lines 40-42 of the script: the `CFLAGS=` check of one loop iteration. -/
def stepCflags : Option PyStr → PyStr → Option PyStr × PyStr
  | none, line => (none, line)
  | some c, line =>
    if startswith (lit "CFLAGS=") line && !c.isEmpty then
      (none, rstrip line ++ lit " " ++ strip c ++ lit "\n")
    else (some c, line)

/-- Lines 43-45 of the script: the `EXTRALIBS=` check of one loop iteration. -/
def stepExtralibs : Option PyStr → PyStr → Option PyStr × PyStr
  | none, line => (none, line)
  | some e, line =>
    if startswith (lit "EXTRALIBS=") line && !e.isEmpty then
      (none, rstrip line ++ lit " " ++ e ++ lit "\n")
    else (some e, line)

/-- Lines 46-48 of the script: the `LOCAL_SCAN_SOURCE=` check. There is no
    truthiness guard, so a second matching line evaluates `str + None`. -/
def stepSource : Option PyStr → PyStr → Except PyError (Option PyStr × PyStr)
  | src, line =>
    if startswith (lit "LOCAL_SCAN_SOURCE=") line then
      match src with
      | some s => Except.ok (none, lit "LOCAL_SCAN_SOURCE=" ++ s ++ lit "\n")
      | none => Except.error PyError.typeError
    else Except.ok (src, line)

/-- Lines 49-51 of the script: the `LOCAL_SCAN_HAS_OPTIONS=` check. -/
def stepHasOptions (ho : Bool) (line : PyStr) : Bool × PyStr :=
  if startswith (lit "LOCAL_SCAN_HAS_OPTIONS=") line then
    (false, lit "LOCAL_SCAN_HAS_OPTIONS=yes\n")
  else (ho, line)

/-- One iteration of the `for i in range(len(makefile))` loop: the four
    checks applied in order to the evolving `makefile[i]`. -/
def patchLine (st : LoopState) (line : PyStr) : Except PyError (LoopState × PyStr) :=
  let r1 := stepCflags st.cflags line
  let r2 := stepExtralibs st.extralibs r1.2
  match stepSource st.source r2.2 with
  | Except.error e => Except.error e
  | Except.ok r3 =>
    let r4 := stepHasOptions st.has_options r3.2
    Except.ok (⟨r1.1, r2.1, r3.1, r4.1⟩, r4.2)

/-- The whole scan loop over the list of lines. -/
def runLoop (st : LoopState) : List PyStr → Except PyError (LoopState × List PyStr)
  | [] => Except.ok (st, [])
  | line :: rest =>
    match patchLine st line with
    | Except.error e => Except.error e
    | Except.ok (st1, l1) =>
      match runLoop st1 rest with
      | Except.error e => Except.error e
      | Except.ok (st2, rest1) => Except.ok (st2, l1 :: rest1)

/-- Lines 56-63 of the script: `if var: makefile.append('KEY=%s\n' % var)`. -/
def appendVar (key : PyStr) : Option PyStr → List PyStr
  | some v => if v.isEmpty then [] else [key ++ v ++ lit "\n"]
  | none => []

/-- The in-memory transformation of `patch_makefile` (lines 39-63): scan the
    lines, then append the keys that were not applied. -/
def patchLines (cflags extralibs source : PyStr) (lines : List PyStr) :
    Except PyError (List PyStr) :=
  match runLoop ⟨some cflags, some extralibs, some source, true⟩ lines with
  | Except.error e => Except.error e
  | Except.ok (st, out) =>
    Except.ok (out ++ appendVar (lit "CFLAGS=") st.cflags
      ++ appendVar (lit "EXTRALIBS=") st.extralibs
      ++ appendVar (lit "LOCAL_SCAN_SOURCE=") st.source
      ++ (if st.has_options then [lit "LOCAL_SCAN_HAS_OPTIONS=yes\n"] else []))

/-- The build variables `distutils.sysconfig.get_config_var` supplies. -/
structure Config where
  INCLUDEPY : PyStr
  CFLAGSFORSHARED : PyStr
  LDFLAGS : PyStr
  VERSION : PyStr
deriving DecidableEq

/-- `SOURCE_FILE = 'expy_local_scan.c'` (line 17 of the script). -/
def SOURCE_FILE : PyStr := lit "expy_local_scan.c"

/-- Line 27: `cflags = '-I%s %s' % (cfg('INCLUDEPY'), cfg('CFLAGSFORSHARED'))`. -/
def mkCflags (cfg : Config) : PyStr :=
  lit "-I" ++ cfg.INCLUDEPY ++ lit " " ++ cfg.CFLAGSFORSHARED

/-- Line 28: `extralibs = '%s -lpython%s' % (cfg('LDFLAGS'), cfg('VERSION'))`. -/
def mkExtralibs (cfg : Config) : PyStr :=
  cfg.LDFLAGS ++ lit " -lpython" ++ cfg.VERSION

/-- Line 29: `source = os.path.join('Local', SOURCE_FILE)`. -/
def sourceVal : PyStr := lit "Local/" ++ SOURCE_FILE

/-- The content-level behaviour of `patch_makefile` on the list of lines of
    the Makefile, with the configuration values filled in. -/
def patchMakefileLines (cfg : Config) (lines : List PyStr) :
    Except PyError (List PyStr) :=
  patchLines (mkCflags cfg) (mkExtralibs cfg) sourceVal lines

/-- The slice of the filesystem `patch_makefile` touches: the Makefile at
    `<build_dir>/Local/Makefile` (`none` when the file does not exist, the
    list of its lines otherwise), whether the symlink destination
    `<build_dir>/Local/expy_local_scan.c` is already occupied, and whether
    the symlink has been created. -/
structure FS where
  makefile : Option (List PyStr)
  linkOccupied : Bool
  linkMade : Bool
deriving DecidableEq

/-- The ways `patch_makefile` can fail: `open(...,'r')` on a missing file,
    the `TypeError` of the duplicated `LOCAL_SCAN_SOURCE=` line, and
    `os.symlink` on an occupied destination. -/
inductive OSError
  | fileNotFound
  | typeError
  | linkExists
deriving DecidableEq

/-- `patch_makefile(source_dir, build_dir)` as a function on the filesystem
    slice: read the Makefile (fails if missing), transform the lines, write
    the result back, then create the symlink (fails if the destination is
    occupied, after the write). The returned `FS` is the state when the
    function returns or raises. -/
def patch_makefile (cfg : Config) (fs : FS) : FS × Option OSError :=
  match fs.makefile with
  | none => (fs, some OSError.fileNotFound)
  | some lines =>
    match patchMakefileLines cfg lines with
    | Except.error _ => (fs, some OSError.typeError)
    | Except.ok out =>
      let fs1 : FS := { fs with makefile := some out }
      if fs1.linkOccupied then (fs1, some OSError.linkExists)
      else ({ fs1 with linkMade := true }, none)

/-- `stripTrailingNewline` follows the words of the spec's property for C2
    ("the original line's content (trailing newline stripped)"): it removes
    one trailing newline and nothing else, unlike Python's `rstrip`. -/
def stripTrailingNewline (l : PyStr) : PyStr :=
  if l.getLast? = some '\n' then l.dropLast else l

/-- The line the spec's C2 property predicts for an existing `CFLAGS=` line:
    original content with only the trailing newline stripped, one space, the
    computed flags string, a newline. -/
def specCflagsLine (orig flags : PyStr) : PyStr :=
  stripTrailingNewline orig ++ lit " " ++ flags ++ lit "\n"

/-! ### List utilities: `dropWhile`, `isPrefixOf` -/

theorem dropWhile_append_cons_of_neg (p : Char → Bool) (c : Char) (hc : p c = false) :
    ∀ (a b : List Char), List.dropWhile p (a ++ c :: b) = List.dropWhile p a ++ c :: b := by
  intro a b
  induction a with
  | nil => simp [List.dropWhile_cons, hc]
  | cons x xs ih =>
    by_cases hx : p x = true
    · simpa [List.dropWhile_cons, hx] using ih
    · simp [List.dropWhile_cons, hx]

theorem dropWhile_append_of_ne_nil (p : Char → Bool) :
    ∀ (a b : List Char), List.dropWhile p a ≠ [] →
      List.dropWhile p (a ++ b) = List.dropWhile p a ++ b := by
  intro a b h
  induction a with
  | nil => simp at h
  | cons x xs ih =>
    by_cases hx : p x = true
    · rw [List.cons_append, List.dropWhile_cons, if_pos hx]
      rw [List.dropWhile_cons, if_pos hx] at h
      simpa [List.dropWhile_cons, hx] using ih h
    · simp [List.dropWhile_cons, hx]

theorem dropWhile_idem (p : Char → Bool) (l : List Char) :
    List.dropWhile p (List.dropWhile p l) = List.dropWhile p l := by
  induction l with
  | nil => rfl
  | cons a t ih =>
    by_cases h : p a = true
    · simp [List.dropWhile_cons, h, ih]
    · simp [List.dropWhile_cons, h]

theorem dropWhile_head_neg (p : Char → Bool) :
    ∀ (l : List Char) (c : Char) (t : List Char),
      List.dropWhile p l = c :: t → p c = false := by
  intro l
  induction l with
  | nil => intro c t h; simp at h
  | cons a u ih =>
    intro c t h
    by_cases ha : p a = true
    · rw [List.dropWhile_cons, if_pos ha] at h
      exact ih c t h
    · rw [List.dropWhile_cons, if_neg ha] at h
      cases h
      simpa using ha

theorem isPrefixOf_append_self (p : PyStr) : ∀ r, List.isPrefixOf p (p ++ r) = true := by
  induction p with
  | nil => intro r; simp [List.isPrefixOf]
  | cons a t ih => intro r; simp [List.isPrefixOf, ih]

theorem isPrefixOf_ex (p : PyStr) :
    ∀ s, List.isPrefixOf p s = true → ∃ r, s = p ++ r := by
  induction p with
  | nil => intro s _; exact ⟨s, rfl⟩
  | cons a t ih =>
    intro s h
    cases s with
    | nil => simp [List.isPrefixOf] at h
    | cons b u =>
      simp only [List.isPrefixOf, Bool.and_eq_true, beq_iff_eq] at h
      obtain ⟨hab, hu⟩ := h
      obtain ⟨r, rfl⟩ := ih u hu
      exact ⟨r, by rw [hab]; rfl⟩

theorem isPrefixOf_append_same (p : PyStr) :
    ∀ l₁ l₂, List.isPrefixOf (p ++ l₁) (p ++ l₂) = List.isPrefixOf l₁ l₂ := by
  induction p with
  | nil => intro l₁ l₂; rfl
  | cons a t ih => intro l₁ l₂; simp [List.isPrefixOf, ih]

theorem isPrefixOf_cons_ne (a b : Char) (h : a ≠ b) (t u : List Char) :
    List.isPrefixOf (a :: t) (b :: u) = false := by
  simp [List.isPrefixOf, beq_eq_false_iff_ne.mpr h]

/-! ### `startswith` facts about the four keys -/

theorem startswith_append_self (k r : PyStr) : startswith k (k ++ r) = true :=
  isPrefixOf_append_self k r

theorem startswith_ex (k l : PyStr) (h : startswith k l = true) : ∃ r, l = k ++ r :=
  isPrefixOf_ex k l h

theorem startswith_disj (k₁ k₂ p : PyStr) (a b : Char) (t₁ t₂ : PyStr)
    (h₁ : k₁ = p ++ a :: t₁) (h₂ : k₂ = p ++ b :: t₂) (hab : b ≠ a)
    (l : PyStr) (h : startswith k₁ l = true) : startswith k₂ l = false := by
  obtain ⟨r, rfl⟩ := startswith_ex k₁ l h
  subst h₁ h₂
  unfold startswith
  rw [List.append_assoc, List.cons_append, isPrefixOf_append_same]
  exact isPrefixOf_cons_ne b a hab t₂ (t₁ ++ r)

theorem sw_cf_not_ex (l : PyStr) (h : startswith (lit "CFLAGS=") l = true) :
    startswith (lit "EXTRALIBS=") l = false :=
  startswith_disj _ _ [] 'C' 'E' (lit "FLAGS=") (lit "XTRALIBS=") rfl rfl (by decide) l h

theorem sw_cf_not_src (l : PyStr) (h : startswith (lit "CFLAGS=") l = true) :
    startswith (lit "LOCAL_SCAN_SOURCE=") l = false :=
  startswith_disj _ _ [] 'C' 'L' (lit "FLAGS=") (lit "OCAL_SCAN_SOURCE=") rfl rfl (by decide) l h

theorem sw_cf_not_ho (l : PyStr) (h : startswith (lit "CFLAGS=") l = true) :
    startswith (lit "LOCAL_SCAN_HAS_OPTIONS=") l = false :=
  startswith_disj _ _ [] 'C' 'L' (lit "FLAGS=") (lit "OCAL_SCAN_HAS_OPTIONS=") rfl rfl (by decide) l h

theorem sw_ex_not_cf (l : PyStr) (h : startswith (lit "EXTRALIBS=") l = true) :
    startswith (lit "CFLAGS=") l = false :=
  startswith_disj _ _ [] 'E' 'C' (lit "XTRALIBS=") (lit "FLAGS=") rfl rfl (by decide) l h

theorem sw_ex_not_src (l : PyStr) (h : startswith (lit "EXTRALIBS=") l = true) :
    startswith (lit "LOCAL_SCAN_SOURCE=") l = false :=
  startswith_disj _ _ [] 'E' 'L' (lit "XTRALIBS=") (lit "OCAL_SCAN_SOURCE=") rfl rfl (by decide) l h

theorem sw_ex_not_ho (l : PyStr) (h : startswith (lit "EXTRALIBS=") l = true) :
    startswith (lit "LOCAL_SCAN_HAS_OPTIONS=") l = false :=
  startswith_disj _ _ [] 'E' 'L' (lit "XTRALIBS=") (lit "OCAL_SCAN_HAS_OPTIONS=") rfl rfl (by decide) l h

theorem sw_src_not_cf (l : PyStr) (h : startswith (lit "LOCAL_SCAN_SOURCE=") l = true) :
    startswith (lit "CFLAGS=") l = false :=
  startswith_disj _ _ [] 'L' 'C' (lit "OCAL_SCAN_SOURCE=") (lit "FLAGS=") rfl rfl (by decide) l h

theorem sw_src_not_ex (l : PyStr) (h : startswith (lit "LOCAL_SCAN_SOURCE=") l = true) :
    startswith (lit "EXTRALIBS=") l = false :=
  startswith_disj _ _ [] 'L' 'E' (lit "OCAL_SCAN_SOURCE=") (lit "XTRALIBS=") rfl rfl (by decide) l h

theorem sw_src_not_ho (l : PyStr) (h : startswith (lit "LOCAL_SCAN_SOURCE=") l = true) :
    startswith (lit "LOCAL_SCAN_HAS_OPTIONS=") l = false :=
  startswith_disj _ _ (lit "LOCAL_SCAN_") 'S' 'H' (lit "OURCE=") (lit "AS_OPTIONS=") rfl rfl
    (by decide) l h

theorem sw_ho_not_cf (l : PyStr) (h : startswith (lit "LOCAL_SCAN_HAS_OPTIONS=") l = true) :
    startswith (lit "CFLAGS=") l = false :=
  startswith_disj _ _ [] 'L' 'C' (lit "OCAL_SCAN_HAS_OPTIONS=") (lit "FLAGS=") rfl rfl (by decide) l h

theorem sw_ho_not_ex (l : PyStr) (h : startswith (lit "LOCAL_SCAN_HAS_OPTIONS=") l = true) :
    startswith (lit "EXTRALIBS=") l = false :=
  startswith_disj _ _ [] 'L' 'E' (lit "OCAL_SCAN_HAS_OPTIONS=") (lit "XTRALIBS=") rfl rfl (by decide) l h

theorem sw_ho_not_src (l : PyStr) (h : startswith (lit "LOCAL_SCAN_HAS_OPTIONS=") l = true) :
    startswith (lit "LOCAL_SCAN_SOURCE=") l = false :=
  startswith_disj _ _ (lit "LOCAL_SCAN_") 'H' 'S' (lit "AS_OPTIONS=") (lit "OURCE=") rfl rfl
    (by decide) l h

/-! ### `rstrip`/`strip` facts -/

theorem rstrip_append_nws (m : PyStr) (c : Char) (hc : pyWs c = false) (l : PyStr) :
    rstrip ((m ++ [c]) ++ l) = (m ++ [c]) ++ rstrip l := by
  unfold rstrip
  rw [List.reverse_append, List.reverse_append, List.reverse_singleton, List.singleton_append,
    dropWhile_append_cons_of_neg pyWs c hc, List.reverse_append, List.reverse_cons,
    List.reverse_reverse]

theorem rstrip_append_of_ne_nil (l₁ l₂ : PyStr) (h : rstrip l₂ ≠ []) :
    rstrip (l₁ ++ l₂) = l₁ ++ rstrip l₂ := by
  have h2 : List.dropWhile pyWs l₂.reverse ≠ [] := by
    intro hx
    exact h (by simp [rstrip, hx])
  unfold rstrip
  rw [List.reverse_append, dropWhile_append_of_ne_nil pyWs _ _ h2, List.reverse_append,
    List.reverse_reverse]

theorem rstrip_append_newline (l : PyStr) : rstrip (l ++ lit "\n") = rstrip l := by
  unfold rstrip
  have : (l ++ lit "\n").reverse = '\n' :: l.reverse := by simp [lit]
  rw [this, List.dropWhile_cons]
  simp [pyWs]

theorem rstrip_rstrip (l : PyStr) : rstrip (rstrip l) = rstrip l := by
  unfold rstrip
  rw [List.reverse_reverse, dropWhile_idem]

theorem rstrip_strip (l : PyStr) : rstrip (strip l) = strip l := rstrip_rstrip (lstrip l)

/-- A key of the form `m ++ [c]` with `c` non-whitespace survives `rstrip` at
    the head of a matching line. -/
theorem rstrip_keeps_key (k m : PyStr) (c : Char) (hk : k = m ++ [c]) (hc : pyWs c = false)
    (l : PyStr) (h : startswith k l = true) : ∃ y, rstrip l = k ++ y := by
  obtain ⟨r, rfl⟩ := startswith_ex k l h
  subst hk
  exact ⟨rstrip r, rstrip_append_nws m c hc r⟩

/-- The rewritten form of an additive line still starts with its key. -/
theorem startswith_rstrip_append (k m : PyStr) (c : Char) (hk : k = m ++ [c])
    (hc : pyWs c = false) (l x : PyStr) (h : startswith k l = true) :
    startswith k (rstrip l ++ x) = true := by
  obtain ⟨y, hy⟩ := rstrip_keeps_key k m c hk hc l h
  rw [hy, List.append_assoc]
  exact startswith_append_self k (y ++ x)

theorem sw_cf_rewrite (l x : PyStr) (h : startswith (lit "CFLAGS=") l = true) :
    startswith (lit "CFLAGS=") (rstrip l ++ x) = true :=
  startswith_rstrip_append _ (lit "CFLAGS") '=' rfl (by decide) l x h

theorem sw_ex_rewrite (l x : PyStr) (h : startswith (lit "EXTRALIBS=") l = true) :
    startswith (lit "EXTRALIBS=") (rstrip l ++ x) = true :=
  startswith_rstrip_append _ (lit "EXTRALIBS") '=' rfl (by decide) l x h

/-! ### Behaviour of the four checks of one loop iteration -/

theorem stepCflags_no_match (cf : Option PyStr) (l : PyStr)
    (h : startswith (lit "CFLAGS=") l = false) : stepCflags cf l = (cf, l) := by
  cases cf with
  | none => rfl
  | some c => simp [stepCflags, h]

theorem stepCflags_not_alive (cf : Option PyStr) (l : PyStr)
    (h : alive cf = false) : stepCflags cf l = (cf, l) := by
  cases cf with
  | none => rfl
  | some c =>
    have hc : c.isEmpty = true := by simpa [alive] using h
    simp [stepCflags, hc]

theorem stepCflags_fires (c : PyStr) (l : PyStr)
    (hm : startswith (lit "CFLAGS=") l = true) (hc : c.isEmpty = false) :
    stepCflags (some c) l = (none, rstrip l ++ lit " " ++ strip c ++ lit "\n") := by
  simp [stepCflags, hm, hc]

theorem stepExtralibs_no_match (el : Option PyStr) (l : PyStr)
    (h : startswith (lit "EXTRALIBS=") l = false) : stepExtralibs el l = (el, l) := by
  cases el with
  | none => rfl
  | some e => simp [stepExtralibs, h]

theorem stepExtralibs_not_alive (el : Option PyStr) (l : PyStr)
    (h : alive el = false) : stepExtralibs el l = (el, l) := by
  cases el with
  | none => rfl
  | some e =>
    have he : e.isEmpty = true := by simpa [alive] using h
    simp [stepExtralibs, he]

theorem stepExtralibs_fires (e : PyStr) (l : PyStr)
    (hm : startswith (lit "EXTRALIBS=") l = true) (he : e.isEmpty = false) :
    stepExtralibs (some e) l = (none, rstrip l ++ lit " " ++ e ++ lit "\n") := by
  simp [stepExtralibs, hm, he]

theorem stepSource_no_match (src : Option PyStr) (l : PyStr)
    (h : startswith (lit "LOCAL_SCAN_SOURCE=") l = false) :
    stepSource src l = Except.ok (src, l) := by
  simp [stepSource, h]

theorem stepSource_match_some (s : PyStr) (l : PyStr)
    (hm : startswith (lit "LOCAL_SCAN_SOURCE=") l = true) :
    stepSource (some s) l = Except.ok (none, lit "LOCAL_SCAN_SOURCE=" ++ s ++ lit "\n") := by
  simp [stepSource, hm]

theorem stepSource_match_none (l : PyStr)
    (hm : startswith (lit "LOCAL_SCAN_SOURCE=") l = true) :
    stepSource none l = Except.error PyError.typeError := by
  simp [stepSource, hm]

theorem stepHasOptions_no_match (ho : Bool) (l : PyStr)
    (h : startswith (lit "LOCAL_SCAN_HAS_OPTIONS=") l = false) :
    stepHasOptions ho l = (ho, l) := by
  simp [stepHasOptions, h]

theorem stepHasOptions_match (ho : Bool) (l : PyStr)
    (hm : startswith (lit "LOCAL_SCAN_HAS_OPTIONS=") l = true) :
    stepHasOptions ho l = (false, lit "LOCAL_SCAN_HAS_OPTIONS=yes\n") := by
  simp [stepHasOptions, hm]

/-! ### Behaviour of a whole loop iteration (`patchLine`) -/

theorem patchLine_ok_elim (st : LoopState) (l : PyStr) (st' : LoopState) (l' : PyStr)
    (h : patchLine st l = Except.ok (st', l')) :
    ∃ r3 : Option PyStr × PyStr,
      stepSource st.source (stepExtralibs st.extralibs (stepCflags st.cflags l).2).2
        = Except.ok r3 ∧
      st' = ⟨(stepCflags st.cflags l).1,
             (stepExtralibs st.extralibs (stepCflags st.cflags l).2).1,
             r3.1, (stepHasOptions st.has_options r3.2).1⟩ ∧
      l' = (stepHasOptions st.has_options r3.2).2 := by
  simp only [patchLine] at h
  cases hS : stepSource st.source (stepExtralibs st.extralibs (stepCflags st.cflags l).2).2 with
  | error e => rw [hS] at h; exact absurd h (by simp)
  | ok r3 =>
    rw [hS] at h
    simp only [Except.ok.injEq, Prod.mk.injEq] at h
    exact ⟨r3, rfl, h.1.symm, h.2.symm⟩

theorem patchLine_all_no_match (st : LoopState) (l : PyStr) (st' : LoopState) (l' : PyStr)
    (h : patchLine st l = Except.ok (st', l'))
    (h1 : startswith (lit "CFLAGS=") l = false)
    (h2 : startswith (lit "EXTRALIBS=") l = false)
    (h3 : startswith (lit "LOCAL_SCAN_SOURCE=") l = false)
    (h4 : startswith (lit "LOCAL_SCAN_HAS_OPTIONS=") l = false) :
    st' = st ∧ l' = l := by
  obtain ⟨r3, hS, hst, hl⟩ := patchLine_ok_elim st l st' l' h
  rw [stepCflags_no_match _ _ h1] at hS hst
  rw [stepExtralibs_no_match _ _ h2] at hS hst
  rw [stepSource_no_match _ _ h3] at hS
  obtain rfl : r3 = (st.source, l) := (Except.ok.inj hS).symm
  rw [stepHasOptions_no_match _ _ h4] at hst hl
  exact ⟨hst, hl⟩

theorem stepCflags_snd_cases (cf : Option PyStr) (l : PyStr) :
    (stepCflags cf l).2 = l ∨ startswith (lit "CFLAGS=") (stepCflags cf l).2 = true := by
  cases cf with
  | none => exact Or.inl rfl
  | some c =>
    by_cases hb : (startswith (lit "CFLAGS=") l && !c.isEmpty) = true
    · refine Or.inr ?_
      have hm : startswith (lit "CFLAGS=") l = true := by
        have hb' := hb; simp only [Bool.and_eq_true] at hb'; exact hb'.1
      have : startswith (lit "CFLAGS=")
          (rstrip l ++ (lit " " ++ strip c ++ lit "\n")) = true := sw_cf_rewrite l _ hm
      simp only [stepCflags, hb, if_true]
      simpa [List.append_assoc] using this
    · simp only [stepCflags, hb]
      exact Or.inl rfl

theorem stepExtralibs_snd_cases (el : Option PyStr) (l : PyStr) :
    (stepExtralibs el l).2 = l ∨ startswith (lit "EXTRALIBS=") (stepExtralibs el l).2 = true := by
  cases el with
  | none => exact Or.inl rfl
  | some e =>
    by_cases hb : (startswith (lit "EXTRALIBS=") l && !e.isEmpty) = true
    · refine Or.inr ?_
      have hm : startswith (lit "EXTRALIBS=") l = true := by
        have hb' := hb; simp only [Bool.and_eq_true] at hb'; exact hb'.1
      have : startswith (lit "EXTRALIBS=")
          (rstrip l ++ (lit " " ++ e ++ lit "\n")) = true := sw_ex_rewrite l _ hm
      simp only [stepExtralibs, hb, if_true]
      simpa [List.append_assoc] using this
    · simp only [stepExtralibs, hb]
      exact Or.inl rfl

theorem startswith_src_line (s : PyStr) :
    startswith (lit "LOCAL_SCAN_SOURCE=") (lit "LOCAL_SCAN_SOURCE=" ++ (s ++ lit "\n")) = true :=
  startswith_append_self _ _

theorem stepSource_snd_cases (src : Option PyStr) (l : PyStr) (r3 : Option PyStr × PyStr)
    (h : stepSource src l = Except.ok r3) :
    r3.2 = l ∨ startswith (lit "LOCAL_SCAN_SOURCE=") r3.2 = true := by
  by_cases hm : startswith (lit "LOCAL_SCAN_SOURCE=") l = true
  · cases src with
    | none => rw [stepSource_match_none l hm] at h; exact absurd h (by simp)
    | some s =>
      rw [stepSource_match_some s l hm] at h
      obtain rfl : r3 = (none, lit "LOCAL_SCAN_SOURCE=" ++ s ++ lit "\n") := (Except.ok.inj h).symm
      refine Or.inr ?_
      have := startswith_src_line s
      simpa [List.append_assoc] using this
  · rw [stepSource_no_match src l (by simpa using hm)] at h
    obtain rfl : r3 = (src, l) := (Except.ok.inj h).symm
    exact Or.inl rfl

theorem sw_after_cf_ex (cf : Option PyStr) (l : PyStr)
    (h : startswith (lit "EXTRALIBS=") l = false) :
    startswith (lit "EXTRALIBS=") (stepCflags cf l).2 = false := by
  rcases stepCflags_snd_cases cf l with h2 | h2
  · rw [h2]; exact h
  · exact sw_cf_not_ex _ h2

theorem sw_after_cf_src (cf : Option PyStr) (l : PyStr)
    (h : startswith (lit "LOCAL_SCAN_SOURCE=") l = false) :
    startswith (lit "LOCAL_SCAN_SOURCE=") (stepCflags cf l).2 = false := by
  rcases stepCflags_snd_cases cf l with h2 | h2
  · rw [h2]; exact h
  · exact sw_cf_not_src _ h2

theorem sw_after_cf_ho (cf : Option PyStr) (l : PyStr)
    (h : startswith (lit "LOCAL_SCAN_HAS_OPTIONS=") l = false) :
    startswith (lit "LOCAL_SCAN_HAS_OPTIONS=") (stepCflags cf l).2 = false := by
  rcases stepCflags_snd_cases cf l with h2 | h2
  · rw [h2]; exact h
  · exact sw_cf_not_ho _ h2

theorem sw_after_ex_src (el : Option PyStr) (l : PyStr)
    (h : startswith (lit "LOCAL_SCAN_SOURCE=") l = false) :
    startswith (lit "LOCAL_SCAN_SOURCE=") (stepExtralibs el l).2 = false := by
  rcases stepExtralibs_snd_cases el l with h2 | h2
  · rw [h2]; exact h
  · exact sw_ex_not_src _ h2

theorem sw_after_ex_ho (el : Option PyStr) (l : PyStr)
    (h : startswith (lit "LOCAL_SCAN_HAS_OPTIONS=") l = false) :
    startswith (lit "LOCAL_SCAN_HAS_OPTIONS=") (stepExtralibs el l).2 = false := by
  rcases stepExtralibs_snd_cases el l with h2 | h2
  · rw [h2]; exact h
  · exact sw_ex_not_ho _ h2

theorem sw_after_src_ho (src : Option PyStr) (l : PyStr) (r3 : Option PyStr × PyStr)
    (hS : stepSource src l = Except.ok r3)
    (h : startswith (lit "LOCAL_SCAN_HAS_OPTIONS=") l = false) :
    startswith (lit "LOCAL_SCAN_HAS_OPTIONS=") r3.2 = false := by
  rcases stepSource_snd_cases src l r3 hS with h2 | h2
  · rw [h2]; exact h
  · exact sw_src_not_ho _ h2

theorem patchLine_cf_match (st : LoopState) (l : PyStr) (st' : LoopState) (l' : PyStr)
    (h : patchLine st l = Except.ok (st', l'))
    (hm : startswith (lit "CFLAGS=") l = true) :
    st'.extralibs = st.extralibs ∧ st'.source = st.source ∧
    st'.has_options = st.has_options ∧ alive st'.cflags = false ∧
    (alive st.cflags = false → st' = st ∧ l' = l) ∧
    (∀ c, st.cflags = some c → c.isEmpty = false →
      st'.cflags = none ∧ l' = rstrip l ++ lit " " ++ strip c ++ lit "\n") := by
  by_cases ha : alive st.cflags = true
  · obtain ⟨c, hc, hce⟩ : ∃ c, st.cflags = some c ∧ c.isEmpty = false := by
      cases hcf : st.cflags with
      | none => rw [hcf] at ha; simp [alive] at ha
      | some c =>
        refine ⟨c, rfl, ?_⟩
        rw [hcf] at ha; simpa [alive] using ha
    have hcf' : startswith (lit "CFLAGS=")
        (rstrip l ++ (lit " " ++ (strip c ++ lit "\n"))) = true :=
      sw_cf_rewrite l (lit " " ++ (strip c ++ lit "\n")) hm
    have hcomp : patchLine st l = Except.ok
        (⟨none, st.extralibs, st.source, st.has_options⟩,
          rstrip l ++ (lit " " ++ (strip c ++ lit "\n"))) := by
      simp [patchLine, hc, stepCflags_fires c l hm hce,
        stepExtralibs_no_match _ _ (sw_cf_not_ex _ hcf'),
        stepSource_no_match _ _ (sw_cf_not_src _ hcf'),
        stepHasOptions_no_match _ _ (sw_cf_not_ho _ hcf')]
    rw [h] at hcomp
    obtain ⟨h1, h2⟩ := Prod.mk.inj (Except.ok.inj hcomp)
    subst h1
    refine ⟨rfl, rfl, rfl, rfl, ?_, ?_⟩
    · intro hdead; rw [hc] at hdead; simp [alive, hce] at hdead
    · intro c' hc' hce'
      rw [hc] at hc'
      obtain rfl : c = c' := Option.some.inj hc'
      refine ⟨rfl, ?_⟩
      rw [h2]; simp [List.append_assoc]
  · have ha' : alive st.cflags = false := by simpa using ha
    have hcomp : patchLine st l = Except.ok (st, l) := by
      simp [patchLine, stepCflags_not_alive _ _ ha',
        stepExtralibs_no_match _ _ (sw_cf_not_ex _ hm),
        stepSource_no_match _ _ (sw_cf_not_src _ hm),
        stepHasOptions_no_match _ _ (sw_cf_not_ho _ hm)]
    rw [h] at hcomp
    obtain ⟨h1, h2⟩ := Prod.mk.inj (Except.ok.inj hcomp)
    subst h1 h2
    refine ⟨rfl, rfl, rfl, ha', fun _ => ⟨rfl, rfl⟩, ?_⟩
    intro c hc hce
    rw [hc] at ha'; simp [alive, hce] at ha'

theorem patchLine_ex_match (st : LoopState) (l : PyStr) (st' : LoopState) (l' : PyStr)
    (h : patchLine st l = Except.ok (st', l'))
    (hm : startswith (lit "EXTRALIBS=") l = true) :
    st'.cflags = st.cflags ∧ st'.source = st.source ∧
    st'.has_options = st.has_options ∧ alive st'.extralibs = false ∧
    (alive st.extralibs = false → st' = st ∧ l' = l) ∧
    (∀ e, st.extralibs = some e → e.isEmpty = false →
      st'.extralibs = none ∧ l' = rstrip l ++ lit " " ++ e ++ lit "\n") := by
  by_cases ha : alive st.extralibs = true
  · obtain ⟨e, he, hee⟩ : ∃ e, st.extralibs = some e ∧ e.isEmpty = false := by
      cases hel : st.extralibs with
      | none => rw [hel] at ha; simp [alive] at ha
      | some e =>
        refine ⟨e, rfl, ?_⟩
        rw [hel] at ha; simpa [alive] using ha
    have hex' : startswith (lit "EXTRALIBS=")
        (rstrip l ++ (lit " " ++ (e ++ lit "\n"))) = true :=
      sw_ex_rewrite l (lit " " ++ (e ++ lit "\n")) hm
    have hcomp : patchLine st l = Except.ok
        (⟨st.cflags, none, st.source, st.has_options⟩,
          rstrip l ++ (lit " " ++ (e ++ lit "\n"))) := by
      simp [patchLine, he, stepCflags_no_match _ _ (sw_ex_not_cf _ hm),
        stepExtralibs_fires e l hm hee,
        stepSource_no_match _ _ (sw_ex_not_src _ hex'),
        stepHasOptions_no_match _ _ (sw_ex_not_ho _ hex')]
    rw [h] at hcomp
    obtain ⟨h1, h2⟩ := Prod.mk.inj (Except.ok.inj hcomp)
    subst h1
    refine ⟨rfl, rfl, rfl, rfl, ?_, ?_⟩
    · intro hdead; rw [he] at hdead; simp [alive, hee] at hdead
    · intro e' he' hee'
      rw [he] at he'
      obtain rfl : e = e' := Option.some.inj he'
      refine ⟨rfl, ?_⟩
      rw [h2]; simp [List.append_assoc]
  · have ha' : alive st.extralibs = false := by simpa using ha
    have hcomp : patchLine st l = Except.ok (st, l) := by
      simp [patchLine, stepCflags_no_match _ _ (sw_ex_not_cf _ hm),
        stepExtralibs_not_alive _ _ ha',
        stepSource_no_match _ _ (sw_ex_not_src _ hm),
        stepHasOptions_no_match _ _ (sw_ex_not_ho _ hm)]
    rw [h] at hcomp
    obtain ⟨h1, h2⟩ := Prod.mk.inj (Except.ok.inj hcomp)
    subst h1 h2
    refine ⟨rfl, rfl, rfl, ha', fun _ => ⟨rfl, rfl⟩, ?_⟩
    intro e he hee
    rw [he] at ha'; simp [alive, hee] at ha'

theorem patchLine_src_match (st : LoopState) (l : PyStr) (st' : LoopState) (l' : PyStr)
    (h : patchLine st l = Except.ok (st', l'))
    (hm : startswith (lit "LOCAL_SCAN_SOURCE=") l = true) :
    ∃ s, st.source = some s ∧ st'.cflags = st.cflags ∧ st'.extralibs = st.extralibs ∧
      st'.source = none ∧ st'.has_options = st.has_options ∧
      l' = lit "LOCAL_SCAN_SOURCE=" ++ s ++ lit "\n" := by
  cases hsrc : st.source with
  | none =>
    have hcomp : patchLine st l = Except.error PyError.typeError := by
      simp [patchLine, hsrc, stepCflags_no_match _ _ (sw_src_not_cf _ hm),
        stepExtralibs_no_match _ _ (sw_src_not_ex _ hm),
        stepSource_match_none l hm]
    rw [h] at hcomp
    exact absurd hcomp (by simp)
  | some s =>
    have hho : startswith (lit "LOCAL_SCAN_HAS_OPTIONS=")
        (lit "LOCAL_SCAN_SOURCE=" ++ (s ++ lit "\n")) = false :=
      sw_src_not_ho _ (startswith_src_line s)
    have hcomp : patchLine st l = Except.ok
        (⟨st.cflags, st.extralibs, none, st.has_options⟩,
          lit "LOCAL_SCAN_SOURCE=" ++ (s ++ lit "\n")) := by
      simp [patchLine, hsrc, stepCflags_no_match _ _ (sw_src_not_cf _ hm),
        stepExtralibs_no_match _ _ (sw_src_not_ex _ hm),
        stepSource_match_some s l hm, stepHasOptions_no_match _ _ hho]
    rw [h] at hcomp
    obtain ⟨h1, h2⟩ := Prod.mk.inj (Except.ok.inj hcomp)
    subst h1
    refine ⟨s, rfl, rfl, rfl, rfl, rfl, ?_⟩
    rw [h2]; simp [List.append_assoc]

theorem patchLine_ho_match (st : LoopState) (l : PyStr) (st' : LoopState) (l' : PyStr)
    (h : patchLine st l = Except.ok (st', l'))
    (hm : startswith (lit "LOCAL_SCAN_HAS_OPTIONS=") l = true) :
    st'.cflags = st.cflags ∧ st'.extralibs = st.extralibs ∧ st'.source = st.source ∧
    st'.has_options = false ∧ l' = lit "LOCAL_SCAN_HAS_OPTIONS=yes\n" := by
  have hcomp : patchLine st l = Except.ok
      (⟨st.cflags, st.extralibs, st.source, false⟩, lit "LOCAL_SCAN_HAS_OPTIONS=yes\n") := by
    simp [patchLine, stepCflags_no_match _ _ (sw_ho_not_cf _ hm),
      stepExtralibs_no_match _ _ (sw_ho_not_ex _ hm),
      stepSource_no_match _ _ (sw_ho_not_src _ hm),
      stepHasOptions_match _ _ hm]
  rw [h] at hcomp
  obtain ⟨h1, h2⟩ := Prod.mk.inj (Except.ok.inj hcomp)
  subst h1 h2
  exact ⟨rfl, rfl, rfl, rfl, rfl⟩

theorem patchLine_cf_no_match (st : LoopState) (l : PyStr) (st' : LoopState) (l' : PyStr)
    (h : patchLine st l = Except.ok (st', l'))
    (hm : startswith (lit "CFLAGS=") l = false) : st'.cflags = st.cflags := by
  obtain ⟨r3, hS, hst, hl⟩ := patchLine_ok_elim st l st' l' h
  rw [hst]
  simp [stepCflags_no_match _ _ hm]

theorem patchLine_ex_no_match (st : LoopState) (l : PyStr) (st' : LoopState) (l' : PyStr)
    (h : patchLine st l = Except.ok (st', l'))
    (hm : startswith (lit "EXTRALIBS=") l = false) : st'.extralibs = st.extralibs := by
  obtain ⟨r3, hS, hst, hl⟩ := patchLine_ok_elim st l st' l' h
  rw [hst]
  simp [stepExtralibs_no_match _ _ (sw_after_cf_ex st.cflags l hm)]

theorem patchLine_src_no_match (st : LoopState) (l : PyStr) (st' : LoopState) (l' : PyStr)
    (h : patchLine st l = Except.ok (st', l'))
    (hm : startswith (lit "LOCAL_SCAN_SOURCE=") l = false) : st'.source = st.source := by
  obtain ⟨r3, hS, hst, hl⟩ := patchLine_ok_elim st l st' l' h
  have h3 : startswith (lit "LOCAL_SCAN_SOURCE=")
      (stepExtralibs st.extralibs (stepCflags st.cflags l).2).2 = false :=
    sw_after_ex_src _ _ (sw_after_cf_src _ _ hm)
  rw [stepSource_no_match _ _ h3] at hS
  obtain rfl := (Except.ok.inj hS).symm
  rw [hst]

theorem patchLine_ho_no_match (st : LoopState) (l : PyStr) (st' : LoopState) (l' : PyStr)
    (h : patchLine st l = Except.ok (st', l'))
    (hm : startswith (lit "LOCAL_SCAN_HAS_OPTIONS=") l = false) :
    st'.has_options = st.has_options := by
  obtain ⟨r3, hS, hst, hl⟩ := patchLine_ok_elim st l st' l' h
  have h4 : startswith (lit "LOCAL_SCAN_HAS_OPTIONS=") r3.2 = false :=
    sw_after_src_ho _ _ _ hS (sw_after_ex_ho _ _ (sw_after_cf_ho _ _ hm))
  rw [hst]
  simp [stepHasOptions_no_match _ _ h4]

/-- A processed line starts with a given key exactly when the original line
    does, for each of the four keys. -/
theorem patchLine_sw (st : LoopState) (l : PyStr) (st' : LoopState) (l' : PyStr)
    (h : patchLine st l = Except.ok (st', l')) :
    startswith (lit "CFLAGS=") l' = startswith (lit "CFLAGS=") l ∧
    startswith (lit "EXTRALIBS=") l' = startswith (lit "EXTRALIBS=") l ∧
    startswith (lit "LOCAL_SCAN_SOURCE=") l' = startswith (lit "LOCAL_SCAN_SOURCE=") l ∧
    startswith (lit "LOCAL_SCAN_HAS_OPTIONS=") l' = startswith (lit "LOCAL_SCAN_HAS_OPTIONS=") l := by
  by_cases h1 : startswith (lit "CFLAGS=") l = true
  · obtain ⟨-, -, -, -, hdead, hfire⟩ := patchLine_cf_match st l st' l' h h1
    by_cases ha : alive st.cflags = true
    · obtain ⟨c, hc, hce⟩ : ∃ c, st.cflags = some c ∧ c.isEmpty = false := by
        cases hcf : st.cflags with
        | none => rw [hcf] at ha; simp [alive] at ha
        | some c =>
          refine ⟨c, rfl, ?_⟩
          rw [hcf] at ha; simpa [alive] using ha
      obtain ⟨-, hl'⟩ := hfire c hc hce
      subst hl'
      have hcf' : startswith (lit "CFLAGS=")
          (rstrip l ++ lit " " ++ strip c ++ lit "\n") = true := by
        have := sw_cf_rewrite l (lit " " ++ (strip c ++ lit "\n")) h1
        simpa [List.append_assoc] using this
      rw [h1, hcf', sw_cf_not_ex _ hcf', sw_cf_not_ex _ h1, sw_cf_not_src _ hcf',
        sw_cf_not_src _ h1, sw_cf_not_ho _ hcf', sw_cf_not_ho _ h1]
      exact ⟨rfl, rfl, rfl, rfl⟩
    · obtain ⟨-, hl'⟩ := hdead (by simpa using ha)
      subst hl'
      exact ⟨rfl, rfl, rfl, rfl⟩
  by_cases h2 : startswith (lit "EXTRALIBS=") l = true
  · obtain ⟨-, -, -, -, hdead, hfire⟩ := patchLine_ex_match st l st' l' h h2
    by_cases ha : alive st.extralibs = true
    · obtain ⟨e, he, hee⟩ : ∃ e, st.extralibs = some e ∧ e.isEmpty = false := by
        cases hel : st.extralibs with
        | none => rw [hel] at ha; simp [alive] at ha
        | some e =>
          refine ⟨e, rfl, ?_⟩
          rw [hel] at ha; simpa [alive] using ha
      obtain ⟨-, hl'⟩ := hfire e he hee
      subst hl'
      have hex' : startswith (lit "EXTRALIBS=")
          (rstrip l ++ lit " " ++ e ++ lit "\n") = true := by
        have := sw_ex_rewrite l (lit " " ++ (e ++ lit "\n")) h2
        simpa [List.append_assoc] using this
      rw [h2, hex', sw_ex_not_cf _ hex', sw_ex_not_cf _ h2, sw_ex_not_src _ hex',
        sw_ex_not_src _ h2, sw_ex_not_ho _ hex', sw_ex_not_ho _ h2]
      exact ⟨rfl, rfl, rfl, rfl⟩
    · obtain ⟨-, hl'⟩ := hdead (by simpa using ha)
      subst hl'
      exact ⟨rfl, rfl, rfl, rfl⟩
  by_cases h3 : startswith (lit "LOCAL_SCAN_SOURCE=") l = true
  · obtain ⟨s, -, -, -, -, -, hl'⟩ := patchLine_src_match st l st' l' h h3
    subst hl'
    have hsw : startswith (lit "LOCAL_SCAN_SOURCE=")
        (lit "LOCAL_SCAN_SOURCE=" ++ s ++ lit "\n") = true := by
      have := startswith_src_line s
      simpa [List.append_assoc] using this
    rw [h3, hsw, sw_src_not_cf _ hsw, sw_src_not_cf _ h3, sw_src_not_ex _ hsw,
      sw_src_not_ex _ h3, sw_src_not_ho _ hsw, sw_src_not_ho _ h3]
    exact ⟨rfl, rfl, rfl, rfl⟩
  by_cases h4 : startswith (lit "LOCAL_SCAN_HAS_OPTIONS=") l = true
  · obtain ⟨-, -, -, -, hl'⟩ := patchLine_ho_match st l st' l' h h4
    subst hl'
    have hsw : startswith (lit "LOCAL_SCAN_HAS_OPTIONS=")
        (lit "LOCAL_SCAN_HAS_OPTIONS=yes\n") = true := by decide
    rw [h4, hsw, sw_ho_not_cf _ hsw, sw_ho_not_cf _ h4, sw_ho_not_ex _ hsw, sw_ho_not_ex _ h4,
      sw_ho_not_src _ hsw, sw_ho_not_src _ h4]
    exact ⟨rfl, rfl, rfl, rfl⟩
  · have e1 : startswith (lit "CFLAGS=") l = false := by simpa using h1
    have e2 : startswith (lit "EXTRALIBS=") l = false := by simpa using h2
    have e3 : startswith (lit "LOCAL_SCAN_SOURCE=") l = false := by simpa using h3
    have e4 : startswith (lit "LOCAL_SCAN_HAS_OPTIONS=") l = false := by simpa using h4
    obtain ⟨-, hl'⟩ := patchLine_all_no_match st l st' l' h e1 e2 e3 e4
    subst hl'
    exact ⟨rfl, rfl, rfl, rfl⟩

theorem patchLine_cf_state_cases (st : LoopState) (l : PyStr) (st' : LoopState) (l' : PyStr)
    (h : patchLine st l = Except.ok (st', l')) :
    st'.cflags = st.cflags ∨ (st'.cflags = none ∧ startswith (lit "CFLAGS=") l' = true) := by
  by_cases hm : startswith (lit "CFLAGS=") l = true
  · by_cases ha : alive st.cflags = true
    · obtain ⟨c, hc, hce⟩ : ∃ c, st.cflags = some c ∧ c.isEmpty = false := by
        cases hcf : st.cflags with
        | none => rw [hcf] at ha; simp [alive] at ha
        | some c =>
          refine ⟨c, rfl, ?_⟩
          rw [hcf] at ha; simpa [alive] using ha
      obtain ⟨-, -, -, -, -, hfire⟩ := patchLine_cf_match st l st' l' h hm
      obtain ⟨hnone, -⟩ := hfire c hc hce
      refine Or.inr ⟨hnone, ?_⟩
      rw [(patchLine_sw st l st' l' h).1]
      exact hm
    · obtain ⟨-, -, -, -, hdead, -⟩ := patchLine_cf_match st l st' l' h hm
      obtain ⟨rfl, -⟩ := hdead (by simpa using ha)
      exact Or.inl rfl
  · exact Or.inl (patchLine_cf_no_match st l st' l' h (by simpa using hm))

theorem patchLine_ex_state_cases (st : LoopState) (l : PyStr) (st' : LoopState) (l' : PyStr)
    (h : patchLine st l = Except.ok (st', l')) :
    st'.extralibs = st.extralibs ∨
      (st'.extralibs = none ∧ startswith (lit "EXTRALIBS=") l' = true) := by
  by_cases hm : startswith (lit "EXTRALIBS=") l = true
  · by_cases ha : alive st.extralibs = true
    · obtain ⟨e, he, hee⟩ : ∃ e, st.extralibs = some e ∧ e.isEmpty = false := by
        cases hel : st.extralibs with
        | none => rw [hel] at ha; simp [alive] at ha
        | some e =>
          refine ⟨e, rfl, ?_⟩
          rw [hel] at ha; simpa [alive] using ha
      obtain ⟨-, -, -, -, -, hfire⟩ := patchLine_ex_match st l st' l' h hm
      obtain ⟨hnone, -⟩ := hfire e he hee
      refine Or.inr ⟨hnone, ?_⟩
      rw [(patchLine_sw st l st' l' h).2.1]
      exact hm
    · obtain ⟨-, -, -, -, hdead, -⟩ := patchLine_ex_match st l st' l' h hm
      obtain ⟨rfl, -⟩ := hdead (by simpa using ha)
      exact Or.inl rfl
  · exact Or.inl (patchLine_ex_no_match st l st' l' h (by simpa using hm))

theorem patchLine_src_state_cases (st : LoopState) (l : PyStr) (st' : LoopState) (l' : PyStr)
    (h : patchLine st l = Except.ok (st', l')) :
    st'.source = st.source ∨
      (st'.source = none ∧ startswith (lit "LOCAL_SCAN_SOURCE=") l' = true) := by
  by_cases hm : startswith (lit "LOCAL_SCAN_SOURCE=") l = true
  · obtain ⟨s, -, -, -, hnone, -, -⟩ := patchLine_src_match st l st' l' h hm
    refine Or.inr ⟨hnone, ?_⟩
    rw [(patchLine_sw st l st' l' h).2.2.1]
    exact hm
  · exact Or.inl (patchLine_src_no_match st l st' l' h (by simpa using hm))

theorem patchLine_ho_state_cases (st : LoopState) (l : PyStr) (st' : LoopState) (l' : PyStr)
    (h : patchLine st l = Except.ok (st', l')) :
    st'.has_options = st.has_options ∨
      (st'.has_options = false ∧ startswith (lit "LOCAL_SCAN_HAS_OPTIONS=") l' = true) := by
  by_cases hm : startswith (lit "LOCAL_SCAN_HAS_OPTIONS=") l = true
  · obtain ⟨-, -, -, hfalse, -⟩ := patchLine_ho_match st l st' l' h hm
    refine Or.inr ⟨hfalse, ?_⟩
    rw [(patchLine_sw st l st' l' h).2.2.2]
    exact hm
  · exact Or.inl (patchLine_ho_no_match st l st' l' h (by simpa using hm))

/-! ### Behaviour of the whole scan loop (`runLoop`) -/

theorem runLoop_cons_elim (st : LoopState) (l : PyStr) (ls : List PyStr)
    (st' : LoopState) (out : List PyStr)
    (h : runLoop st (l :: ls) = Except.ok (st', out)) :
    ∃ st1 l1 out1, patchLine st l = Except.ok (st1, l1) ∧
      runLoop st1 ls = Except.ok (st', out1) ∧ out = l1 :: out1 := by
  simp only [runLoop] at h
  cases hP : patchLine st l with
  | error e => rw [hP] at h; exact absurd h (by simp)
  | ok p =>
    obtain ⟨st1, l1⟩ := p
    rw [hP] at h
    dsimp only at h
    cases hR : runLoop st1 ls with
    | error e => rw [hR] at h; exact absurd h (by simp)
    | ok q =>
      obtain ⟨st2, rest1⟩ := q
      rw [hR] at h
      dsimp only at h
      simp only [Except.ok.injEq, Prod.mk.injEq] at h
      obtain ⟨h1, h2⟩ := h
      subst h1
      exact ⟨st1, l1, rest1, rfl, hR, h2.symm⟩

theorem runLoop_nil_elim (st : LoopState) (st' : LoopState) (out : List PyStr)
    (h : runLoop st [] = Except.ok (st', out)) : st' = st ∧ out = [] := by
  simp only [runLoop, Except.ok.injEq, Prod.mk.injEq] at h
  exact ⟨h.1.symm, h.2.symm⟩

theorem runLoop_length (st : LoopState) (ls : List PyStr) (st' : LoopState) (out : List PyStr)
    (h : runLoop st ls = Except.ok (st', out)) : out.length = ls.length := by
  induction ls generalizing st out with
  | nil => obtain ⟨-, rfl⟩ := runLoop_nil_elim st st' out h; rfl
  | cons l ls ih =>
    obtain ⟨st1, l1, out1, hP, hR, rfl⟩ := runLoop_cons_elim st l ls st' out h
    simp [ih st1 out1 hR]

theorem runLoop_cf_dead (st : LoopState) (ls : List PyStr) (st' : LoopState) (out : List PyStr)
    (h : runLoop st ls = Except.ok (st', out)) (ha : alive st.cflags = false) :
    st'.cflags = st.cflags ∧
    ∀ j (hj : j < ls.length), startswith (lit "CFLAGS=") (ls.get ⟨j, hj⟩) = true →
      out.get? j = some (ls.get ⟨j, hj⟩) := by
  induction ls generalizing st out with
  | nil =>
    obtain ⟨rfl, rfl⟩ := runLoop_nil_elim st st' out h
    exact ⟨rfl, fun j hj => absurd hj (by simp)⟩
  | cons l ls ih =>
    obtain ⟨st1, l1, out1, hP, hR, rfl⟩ := runLoop_cons_elim st l ls st' out h
    by_cases hm : startswith (lit "CFLAGS=") l = true
    · obtain ⟨-, -, -, -, hdead, -⟩ := patchLine_cf_match st l st1 l1 hP hm
      obtain ⟨he1, rfl⟩ := hdead ha
      rw [he1] at hR
      obtain ⟨hcf, hpt⟩ := ih st out1 hR ha
      refine ⟨hcf, ?_⟩
      intro j hj hsw
      cases j with
      | zero => rfl
      | succ j => exact hpt j (Nat.lt_of_succ_lt_succ hj) hsw
    · have hst1 : st1.cflags = st.cflags :=
        patchLine_cf_no_match st l st1 l1 hP (by simpa using hm)
      have ha1 : alive st1.cflags = false := by rw [hst1]; exact ha
      obtain ⟨hcf, hpt⟩ := ih st1 out1 hR ha1
      refine ⟨by rw [hcf, hst1], ?_⟩
      intro j hj hsw
      cases j with
      | zero => exact absurd hsw (by simpa using hm)
      | succ j => exact hpt j (Nat.lt_of_succ_lt_succ hj) hsw

theorem runLoop_cf_first (st : LoopState) (ls : List PyStr) (st' : LoopState) (out : List PyStr)
    (c : PyStr) (h : runLoop st ls = Except.ok (st', out))
    (hst : st.cflags = some c) (hc : c.isEmpty = false) :
    ∀ i (hi : i < ls.length), startswith (lit "CFLAGS=") (ls.get ⟨i, hi⟩) = true →
    (∀ k (hk : k < ls.length), k < i → startswith (lit "CFLAGS=") (ls.get ⟨k, hk⟩) = false) →
    out.get? i = some (rstrip (ls.get ⟨i, hi⟩) ++ lit " " ++ strip c ++ lit "\n") := by
  induction ls generalizing st out with
  | nil => intro i hi; exact absurd hi (by simp)
  | cons l ls ih =>
    obtain ⟨st1, l1, out1, hP, hR, rfl⟩ := runLoop_cons_elim st l ls st' out h
    intro i hi hsw hfirst
    cases i with
    | zero =>
      obtain ⟨-, -, -, -, -, hfire⟩ := patchLine_cf_match st l st1 l1 hP hsw
      obtain ⟨-, rfl⟩ := hfire c hst hc
      rfl
    | succ i =>
      have hm0 : startswith (lit "CFLAGS=") l = false := by
        have := hfirst 0 (by simp) (Nat.succ_pos i)
        simpa using this
      have hst1 : st1.cflags = some c := by
        rw [patchLine_cf_no_match st l st1 l1 hP hm0, hst]
      refine ih st1 out1 hR hst1 i (Nat.lt_of_succ_lt_succ hi) hsw ?_
      intro k hk hki
      exact hfirst (k + 1) (Nat.succ_lt_succ hk) (Nat.succ_lt_succ hki)

theorem runLoop_cf_later (st : LoopState) (ls : List PyStr) (st' : LoopState) (out : List PyStr)
    (h : runLoop st ls = Except.ok (st', out)) :
    ∀ i j (hi : i < ls.length) (hj : j < ls.length), i < j →
      startswith (lit "CFLAGS=") (ls.get ⟨i, hi⟩) = true →
      startswith (lit "CFLAGS=") (ls.get ⟨j, hj⟩) = true →
      out.get? j = some (ls.get ⟨j, hj⟩) := by
  induction ls generalizing st out with
  | nil => intro i j hi; exact absurd hi (by simp)
  | cons l ls ih =>
    obtain ⟨st1, l1, out1, hP, hR, rfl⟩ := runLoop_cons_elim st l ls st' out h
    intro i j hi hj hij h1 h2
    cases i with
    | zero =>
      cases j with
      | zero => exact absurd hij (by simp)
      | succ j =>
        obtain ⟨-, -, -, -, hdead1, -⟩ := patchLine_cf_match st l st1 l1 hP h1
        have ha1 : alive st1.cflags = false :=
          (patchLine_cf_match st l st1 l1 hP h1).2.2.2.1
        obtain ⟨-, hpt⟩ := runLoop_cf_dead st1 ls st' out1 hR ha1
        exact hpt j (Nat.lt_of_succ_lt_succ hj) h2
    | succ i =>
      cases j with
      | zero => exact absurd hij (by simp)
      | succ j =>
        exact ih st1 out1 hR i j (Nat.lt_of_succ_lt_succ hi) (Nat.lt_of_succ_lt_succ hj)
          (Nat.lt_of_succ_lt_succ hij) h1 h2

theorem runLoop_cf_state (st : LoopState) (ls : List PyStr) (st' : LoopState) (out : List PyStr)
    (h : runLoop st ls = Except.ok (st', out)) :
    st'.cflags = st.cflags ∨
      (st'.cflags = none ∧ ∃ l ∈ out, startswith (lit "CFLAGS=") l = true) := by
  induction ls generalizing st out with
  | nil =>
    obtain ⟨rfl, rfl⟩ := runLoop_nil_elim st st' out h
    exact Or.inl rfl
  | cons l ls ih =>
    obtain ⟨st1, l1, out1, hP, hR, rfl⟩ := runLoop_cons_elim st l ls st' out h
    rcases patchLine_cf_state_cases st l st1 l1 hP with h1 | ⟨h1, hsw⟩
    · rcases ih st1 out1 hR with h2 | ⟨h2, lx, hmem, hswx⟩
      · exact Or.inl (by rw [h2, h1])
      · exact Or.inr ⟨h2, lx, List.mem_cons_of_mem l1 hmem, hswx⟩
    · rcases ih st1 out1 hR with h2 | ⟨h2, lx, hmem, hswx⟩
      · exact Or.inr ⟨by rw [h2, h1], l1, List.mem_cons_self l1 out1, hsw⟩
      · exact Or.inr ⟨h2, lx, List.mem_cons_of_mem l1 hmem, hswx⟩

theorem runLoop_cf_dead_filter (st : LoopState) (ls : List PyStr) (st' : LoopState)
    (out : List PyStr) (h : runLoop st ls = Except.ok (st', out))
    (ha : alive st.cflags = false) :
    out.filter (fun l => startswith (lit "CFLAGS=") l)
      = ls.filter (fun l => startswith (lit "CFLAGS=") l) := by
  induction ls generalizing st out with
  | nil => obtain ⟨-, rfl⟩ := runLoop_nil_elim st st' out h; rfl
  | cons l ls ih =>
    obtain ⟨st1, l1, out1, hP, hR, rfl⟩ := runLoop_cons_elim st l ls st' out h
    by_cases hm : startswith (lit "CFLAGS=") l = true
    · obtain ⟨-, -, -, -, hdead, -⟩ := patchLine_cf_match st l st1 l1 hP hm
      obtain ⟨he1, rfl⟩ := hdead ha
      rw [he1] at hR
      rw [List.filter_cons, List.filter_cons]
      simp only [hm, if_true]
      rw [ih st out1 hR ha]
    · have hm' : startswith (lit "CFLAGS=") l = false := by simpa using hm
      have hsw1 : startswith (lit "CFLAGS=") l1 = false := by
        rw [(patchLine_sw st l st1 l1 hP).1]; exact hm'
      have hst1 : st1.cflags = st.cflags := patchLine_cf_no_match st l st1 l1 hP hm'
      have ha1 : alive st1.cflags = false := by rw [hst1]; exact ha
      rw [List.filter_cons, List.filter_cons]
      simp only [hm', hsw1, if_false, Bool.false_eq_true]
      rw [ih st1 out1 hR ha1]

theorem runLoop_ex_dead (st : LoopState) (ls : List PyStr) (st' : LoopState) (out : List PyStr)
    (h : runLoop st ls = Except.ok (st', out)) (ha : alive st.extralibs = false) :
    st'.extralibs = st.extralibs ∧
    ∀ j (hj : j < ls.length), startswith (lit "EXTRALIBS=") (ls.get ⟨j, hj⟩) = true →
      out.get? j = some (ls.get ⟨j, hj⟩) := by
  induction ls generalizing st out with
  | nil =>
    obtain ⟨rfl, rfl⟩ := runLoop_nil_elim st st' out h
    exact ⟨rfl, fun j hj => absurd hj (by simp)⟩
  | cons l ls ih =>
    obtain ⟨st1, l1, out1, hP, hR, rfl⟩ := runLoop_cons_elim st l ls st' out h
    by_cases hm : startswith (lit "EXTRALIBS=") l = true
    · obtain ⟨-, -, -, -, hdead, -⟩ := patchLine_ex_match st l st1 l1 hP hm
      obtain ⟨he1, rfl⟩ := hdead ha
      rw [he1] at hR
      obtain ⟨hex, hpt⟩ := ih st out1 hR ha
      refine ⟨hex, ?_⟩
      intro j hj hsw
      cases j with
      | zero => rfl
      | succ j => exact hpt j (Nat.lt_of_succ_lt_succ hj) hsw
    · have hst1 : st1.extralibs = st.extralibs :=
        patchLine_ex_no_match st l st1 l1 hP (by simpa using hm)
      have ha1 : alive st1.extralibs = false := by rw [hst1]; exact ha
      obtain ⟨hex, hpt⟩ := ih st1 out1 hR ha1
      refine ⟨by rw [hex, hst1], ?_⟩
      intro j hj hsw
      cases j with
      | zero => exact absurd hsw (by simpa using hm)
      | succ j => exact hpt j (Nat.lt_of_succ_lt_succ hj) hsw

theorem runLoop_ex_first (st : LoopState) (ls : List PyStr) (st' : LoopState) (out : List PyStr)
    (e : PyStr) (h : runLoop st ls = Except.ok (st', out))
    (hst : st.extralibs = some e) (he : e.isEmpty = false) :
    ∀ i (hi : i < ls.length), startswith (lit "EXTRALIBS=") (ls.get ⟨i, hi⟩) = true →
    (∀ k (hk : k < ls.length), k < i → startswith (lit "EXTRALIBS=") (ls.get ⟨k, hk⟩) = false) →
    out.get? i = some (rstrip (ls.get ⟨i, hi⟩) ++ lit " " ++ e ++ lit "\n") := by
  induction ls generalizing st out with
  | nil => intro i hi; exact absurd hi (by simp)
  | cons l ls ih =>
    obtain ⟨st1, l1, out1, hP, hR, rfl⟩ := runLoop_cons_elim st l ls st' out h
    intro i hi hsw hfirst
    cases i with
    | zero =>
      obtain ⟨-, -, -, -, -, hfire⟩ := patchLine_ex_match st l st1 l1 hP hsw
      obtain ⟨-, rfl⟩ := hfire e hst he
      rfl
    | succ i =>
      have hm0 : startswith (lit "EXTRALIBS=") l = false := by
        have := hfirst 0 (by simp) (Nat.succ_pos i)
        simpa using this
      have hst1 : st1.extralibs = some e := by
        rw [patchLine_ex_no_match st l st1 l1 hP hm0, hst]
      refine ih st1 out1 hR hst1 i (Nat.lt_of_succ_lt_succ hi) hsw ?_
      intro k hk hki
      exact hfirst (k + 1) (Nat.succ_lt_succ hk) (Nat.succ_lt_succ hki)

theorem runLoop_ex_later (st : LoopState) (ls : List PyStr) (st' : LoopState) (out : List PyStr)
    (h : runLoop st ls = Except.ok (st', out)) :
    ∀ i j (hi : i < ls.length) (hj : j < ls.length), i < j →
      startswith (lit "EXTRALIBS=") (ls.get ⟨i, hi⟩) = true →
      startswith (lit "EXTRALIBS=") (ls.get ⟨j, hj⟩) = true →
      out.get? j = some (ls.get ⟨j, hj⟩) := by
  induction ls generalizing st out with
  | nil => intro i j hi; exact absurd hi (by simp)
  | cons l ls ih =>
    obtain ⟨st1, l1, out1, hP, hR, rfl⟩ := runLoop_cons_elim st l ls st' out h
    intro i j hi hj hij h1 h2
    cases i with
    | zero =>
      cases j with
      | zero => exact absurd hij (by simp)
      | succ j =>
        have ha1 : alive st1.extralibs = false :=
          (patchLine_ex_match st l st1 l1 hP h1).2.2.2.1
        obtain ⟨-, hpt⟩ := runLoop_ex_dead st1 ls st' out1 hR ha1
        exact hpt j (Nat.lt_of_succ_lt_succ hj) h2
    | succ i =>
      cases j with
      | zero => exact absurd hij (by simp)
      | succ j =>
        exact ih st1 out1 hR i j (Nat.lt_of_succ_lt_succ hi) (Nat.lt_of_succ_lt_succ hj)
          (Nat.lt_of_succ_lt_succ hij) h1 h2

theorem runLoop_ex_state (st : LoopState) (ls : List PyStr) (st' : LoopState) (out : List PyStr)
    (h : runLoop st ls = Except.ok (st', out)) :
    st'.extralibs = st.extralibs ∨
      (st'.extralibs = none ∧ ∃ l ∈ out, startswith (lit "EXTRALIBS=") l = true) := by
  induction ls generalizing st out with
  | nil =>
    obtain ⟨rfl, rfl⟩ := runLoop_nil_elim st st' out h
    exact Or.inl rfl
  | cons l ls ih =>
    obtain ⟨st1, l1, out1, hP, hR, rfl⟩ := runLoop_cons_elim st l ls st' out h
    rcases patchLine_ex_state_cases st l st1 l1 hP with h1 | ⟨h1, hsw⟩
    · rcases ih st1 out1 hR with h2 | ⟨h2, lx, hmem, hswx⟩
      · exact Or.inl (by rw [h2, h1])
      · exact Or.inr ⟨h2, lx, List.mem_cons_of_mem l1 hmem, hswx⟩
    · rcases ih st1 out1 hR with h2 | ⟨h2, lx, hmem, hswx⟩
      · exact Or.inr ⟨by rw [h2, h1], l1, List.mem_cons_self l1 out1, hsw⟩
      · exact Or.inr ⟨h2, lx, List.mem_cons_of_mem l1 hmem, hswx⟩

theorem runLoop_ex_dead_filter (st : LoopState) (ls : List PyStr) (st' : LoopState)
    (out : List PyStr) (h : runLoop st ls = Except.ok (st', out))
    (ha : alive st.extralibs = false) :
    out.filter (fun l => startswith (lit "EXTRALIBS=") l)
      = ls.filter (fun l => startswith (lit "EXTRALIBS=") l) := by
  induction ls generalizing st out with
  | nil => obtain ⟨-, rfl⟩ := runLoop_nil_elim st st' out h; rfl
  | cons l ls ih =>
    obtain ⟨st1, l1, out1, hP, hR, rfl⟩ := runLoop_cons_elim st l ls st' out h
    by_cases hm : startswith (lit "EXTRALIBS=") l = true
    · obtain ⟨-, -, -, -, hdead, -⟩ := patchLine_ex_match st l st1 l1 hP hm
      obtain ⟨he1, rfl⟩ := hdead ha
      rw [he1] at hR
      rw [List.filter_cons, List.filter_cons]
      simp only [hm, if_true]
      rw [ih st out1 hR ha]
    · have hm' : startswith (lit "EXTRALIBS=") l = false := by simpa using hm
      have hsw1 : startswith (lit "EXTRALIBS=") l1 = false := by
        rw [(patchLine_sw st l st1 l1 hP).2.1]; exact hm'
      have hst1 : st1.extralibs = st.extralibs := patchLine_ex_no_match st l st1 l1 hP hm'
      have ha1 : alive st1.extralibs = false := by rw [hst1]; exact ha
      rw [List.filter_cons, List.filter_cons]
      simp only [hm', hsw1, if_false, Bool.false_eq_true]
      rw [ih st1 out1 hR ha1]

theorem runLoop_src_none (st : LoopState) (ls : List PyStr) (st' : LoopState) (out : List PyStr)
    (h : runLoop st ls = Except.ok (st', out)) (hs : st.source = none) :
    st'.source = none ∧ (∀ l ∈ ls, startswith (lit "LOCAL_SCAN_SOURCE=") l = false) ∧
      (∀ l ∈ out, startswith (lit "LOCAL_SCAN_SOURCE=") l = false) := by
  induction ls generalizing st out with
  | nil =>
    obtain ⟨rfl, rfl⟩ := runLoop_nil_elim st st' out h
    exact ⟨hs, by simp, by simp⟩
  | cons l ls ih =>
    obtain ⟨st1, l1, out1, hP, hR, rfl⟩ := runLoop_cons_elim st l ls st' out h
    by_cases hm : startswith (lit "LOCAL_SCAN_SOURCE=") l = true
    · obtain ⟨s, hsome, -⟩ := patchLine_src_match st l st1 l1 hP hm
      rw [hs] at hsome
      exact absurd hsome (by simp)
    · have hm' : startswith (lit "LOCAL_SCAN_SOURCE=") l = false := by simpa using hm
      have hst1 : st1.source = none := by
        rw [patchLine_src_no_match st l st1 l1 hP hm', hs]
      have hsw1 : startswith (lit "LOCAL_SCAN_SOURCE=") l1 = false := by
        rw [(patchLine_sw st l st1 l1 hP).2.2.1]; exact hm'
      obtain ⟨h1, h2, h3⟩ := ih st1 out1 hR hst1
      refine ⟨h1, ?_, ?_⟩
      · intro lx hmem
        rcases List.mem_cons.mp hmem with rfl | hmem
        · exact hm'
        · exact h2 lx hmem
      · intro lx hmem
        rcases List.mem_cons.mp hmem with rfl | hmem
        · exact hsw1
        · exact h3 lx hmem

theorem runLoop_src_some (st : LoopState) (ls : List PyStr) (st' : LoopState) (out : List PyStr)
    (s : PyStr) (h : runLoop st ls = Except.ok (st', out)) (hs : st.source = some s) :
    (st'.source = some s ∧
      out.filter (fun l => startswith (lit "LOCAL_SCAN_SOURCE=") l) = []) ∨
    (st'.source = none ∧
      out.filter (fun l => startswith (lit "LOCAL_SCAN_SOURCE=") l)
        = [lit "LOCAL_SCAN_SOURCE=" ++ s ++ lit "\n"]) := by
  induction ls generalizing st out with
  | nil =>
    obtain ⟨rfl, rfl⟩ := runLoop_nil_elim st st' out h
    exact Or.inl ⟨hs, rfl⟩
  | cons l ls ih =>
    obtain ⟨st1, l1, out1, hP, hR, rfl⟩ := runLoop_cons_elim st l ls st' out h
    by_cases hm : startswith (lit "LOCAL_SCAN_SOURCE=") l = true
    · obtain ⟨s', hsome, -, -, hnone, -, hl1⟩ := patchLine_src_match st l st1 l1 hP hm
      rw [hs] at hsome
      obtain rfl : s = s' := Option.some.inj hsome
      obtain ⟨h1, -, h3⟩ := runLoop_src_none st1 ls st' out1 hR hnone
      have hfil : out1.filter (fun l => startswith (lit "LOCAL_SCAN_SOURCE=") l) = [] := by
        rw [List.filter_eq_nil_iff]
        intro lx hmem
        simp [h3 lx hmem]
      have hsw1 : startswith (lit "LOCAL_SCAN_SOURCE=") l1 = true := by
        rw [hl1]
        have := startswith_src_line s
        simpa [List.append_assoc] using this
      refine Or.inr ⟨h1, ?_⟩
      rw [List.filter_cons]
      simp only [hsw1, if_true]
      rw [hfil, hl1]
    · have hm' : startswith (lit "LOCAL_SCAN_SOURCE=") l = false := by simpa using hm
      have hst1 : st1.source = some s := by
        rw [patchLine_src_no_match st l st1 l1 hP hm', hs]
      have hsw1 : startswith (lit "LOCAL_SCAN_SOURCE=") l1 = false := by
        rw [(patchLine_sw st l st1 l1 hP).2.2.1]; exact hm'
      rw [List.filter_cons]
      simp only [hsw1, if_false, Bool.false_eq_true]
      exact ih st1 out1 hR hst1

theorem runLoop_src_state (st : LoopState) (ls : List PyStr) (st' : LoopState) (out : List PyStr)
    (h : runLoop st ls = Except.ok (st', out)) :
    st'.source = st.source ∨
      (st'.source = none ∧ ∃ l ∈ out, startswith (lit "LOCAL_SCAN_SOURCE=") l = true) := by
  induction ls generalizing st out with
  | nil =>
    obtain ⟨rfl, rfl⟩ := runLoop_nil_elim st st' out h
    exact Or.inl rfl
  | cons l ls ih =>
    obtain ⟨st1, l1, out1, hP, hR, rfl⟩ := runLoop_cons_elim st l ls st' out h
    rcases patchLine_src_state_cases st l st1 l1 hP with h1 | ⟨h1, hsw⟩
    · rcases ih st1 out1 hR with h2 | ⟨h2, lx, hmem, hswx⟩
      · exact Or.inl (by rw [h2, h1])
      · exact Or.inr ⟨h2, lx, List.mem_cons_of_mem l1 hmem, hswx⟩
    · rcases ih st1 out1 hR with h2 | ⟨h2, lx, hmem, hswx⟩
      · exact Or.inr ⟨by rw [h2, h1], l1, List.mem_cons_self l1 out1, hsw⟩
      · exact Or.inr ⟨h2, lx, List.mem_cons_of_mem l1 hmem, hswx⟩

theorem runLoop_ho_state (st : LoopState) (ls : List PyStr) (st' : LoopState) (out : List PyStr)
    (h : runLoop st ls = Except.ok (st', out)) :
    st'.has_options = st.has_options ∨
      (st'.has_options = false ∧ ∃ l ∈ out, startswith (lit "LOCAL_SCAN_HAS_OPTIONS=") l = true) := by
  induction ls generalizing st out with
  | nil =>
    obtain ⟨rfl, rfl⟩ := runLoop_nil_elim st st' out h
    exact Or.inl rfl
  | cons l ls ih =>
    obtain ⟨st1, l1, out1, hP, hR, rfl⟩ := runLoop_cons_elim st l ls st' out h
    rcases patchLine_ho_state_cases st l st1 l1 hP with h1 | ⟨h1, hsw⟩
    · rcases ih st1 out1 hR with h2 | ⟨h2, lx, hmem, hswx⟩
      · exact Or.inl (by rw [h2, h1])
      · exact Or.inr ⟨h2, lx, List.mem_cons_of_mem l1 hmem, hswx⟩
    · rcases ih st1 out1 hR with h2 | ⟨h2, lx, hmem, hswx⟩
      · exact Or.inr ⟨by rw [h2, h1], l1, List.mem_cons_self l1 out1, hsw⟩
      · exact Or.inr ⟨h2, lx, List.mem_cons_of_mem l1 hmem, hswx⟩

theorem runLoop_ho_filter (st : LoopState) (ls : List PyStr) (st' : LoopState) (out : List PyStr)
    (h : runLoop st ls = Except.ok (st', out)) :
    out.filter (fun l => startswith (lit "LOCAL_SCAN_HAS_OPTIONS=") l)
      = (ls.filter (fun l => startswith (lit "LOCAL_SCAN_HAS_OPTIONS=") l)).map
          (fun _ => lit "LOCAL_SCAN_HAS_OPTIONS=yes\n") ∧
    st'.has_options
      = (st.has_options && !(ls.any (fun l => startswith (lit "LOCAL_SCAN_HAS_OPTIONS=") l))) := by
  induction ls generalizing st out with
  | nil =>
    obtain ⟨rfl, rfl⟩ := runLoop_nil_elim st st' out h
    exact ⟨rfl, by simp⟩
  | cons l ls ih =>
    obtain ⟨st1, l1, out1, hP, hR, rfl⟩ := runLoop_cons_elim st l ls st' out h
    by_cases hm : startswith (lit "LOCAL_SCAN_HAS_OPTIONS=") l = true
    · obtain ⟨-, -, -, hfalse, hl1⟩ := patchLine_ho_match st l st1 l1 hP hm
      obtain ⟨ihf, ihs⟩ := ih st1 out1 hR
      have hsw1 : startswith (lit "LOCAL_SCAN_HAS_OPTIONS=") l1 = true := by
        rw [hl1]; decide
      constructor
      · rw [List.filter_cons, List.filter_cons]
        simp only [hsw1, hm, if_true, List.map_cons]
        rw [ihf, hl1]
      · rw [ihs, hfalse]
        simp [hm]
    · have hm' : startswith (lit "LOCAL_SCAN_HAS_OPTIONS=") l = false := by simpa using hm
      obtain ⟨ihf, ihs⟩ := ih st1 out1 hR
      have hst1 : st1.has_options = st.has_options :=
        patchLine_ho_no_match st l st1 l1 hP hm'
      have hsw1 : startswith (lit "LOCAL_SCAN_HAS_OPTIONS=") l1 = false := by
        rw [(patchLine_sw st l st1 l1 hP).2.2.2]; exact hm'
      constructor
      · rw [List.filter_cons, List.filter_cons]
        simp only [hsw1, hm', if_false, Bool.false_eq_true]
        exact ihf
      · rw [ihs, hst1]
        simp [hm']

theorem patchLine_id_of_no_match (st : LoopState) (l : PyStr)
    (h1 : startswith (lit "CFLAGS=") l = false)
    (h2 : startswith (lit "EXTRALIBS=") l = false)
    (h3 : startswith (lit "LOCAL_SCAN_SOURCE=") l = false)
    (h4 : startswith (lit "LOCAL_SCAN_HAS_OPTIONS=") l = false) :
    patchLine st l = Except.ok (st, l) := by
  simp [patchLine, stepCflags_no_match _ _ h1, stepExtralibs_no_match _ _ h2,
    stepSource_no_match _ _ h3, stepHasOptions_no_match _ _ h4]

theorem runLoop_id_of_no_match (st : LoopState) (ls : List PyStr)
    (h : ∀ l ∈ ls, startswith (lit "CFLAGS=") l = false ∧
      startswith (lit "EXTRALIBS=") l = false ∧
      startswith (lit "LOCAL_SCAN_SOURCE=") l = false ∧
      startswith (lit "LOCAL_SCAN_HAS_OPTIONS=") l = false) :
    runLoop st ls = Except.ok (st, ls) := by
  induction ls generalizing st with
  | nil => rfl
  | cons l ls ih =>
    obtain ⟨h1, h2, h3, h4⟩ := h l (List.mem_cons_self l ls)
    have hrest : runLoop st ls = Except.ok (st, ls) :=
      ih st (fun lx hx => h lx (List.mem_cons_of_mem l hx))
    simp [runLoop, patchLine_id_of_no_match st l h1 h2 h3 h4, hrest]

theorem runLoop_sw (st : LoopState) (ls : List PyStr) (st' : LoopState) (out : List PyStr)
    (h : runLoop st ls = Except.ok (st', out)) :
    ∀ j (hj : j < ls.length), ∃ lj, out.get? j = some lj ∧
      startswith (lit "CFLAGS=") lj = startswith (lit "CFLAGS=") (ls.get ⟨j, hj⟩) ∧
      startswith (lit "EXTRALIBS=") lj = startswith (lit "EXTRALIBS=") (ls.get ⟨j, hj⟩) ∧
      startswith (lit "LOCAL_SCAN_SOURCE=") lj
        = startswith (lit "LOCAL_SCAN_SOURCE=") (ls.get ⟨j, hj⟩) ∧
      startswith (lit "LOCAL_SCAN_HAS_OPTIONS=") lj
        = startswith (lit "LOCAL_SCAN_HAS_OPTIONS=") (ls.get ⟨j, hj⟩) := by
  induction ls generalizing st out with
  | nil => intro j hj; exact absurd hj (by simp)
  | cons l ls ih =>
    obtain ⟨st1, l1, out1, hP, hR, rfl⟩ := runLoop_cons_elim st l ls st' out h
    intro j hj
    cases j with
    | zero => exact ⟨l1, rfl, patchLine_sw st l st1 l1 hP⟩
    | succ j => exact ih st1 out1 hR j (Nat.lt_of_succ_lt_succ hj)

/-! ### Decomposition of `patchLines` and facts about the appended lines -/

theorem patchLines_ok_elim (c e s : PyStr) (ls out : List PyStr)
    (h : patchLines c e s ls = Except.ok out) :
    ∃ st' lout, runLoop ⟨some c, some e, some s, true⟩ ls = Except.ok (st', lout) ∧
      out = lout ++ (appendVar (lit "CFLAGS=") st'.cflags
        ++ (appendVar (lit "EXTRALIBS=") st'.extralibs
        ++ (appendVar (lit "LOCAL_SCAN_SOURCE=") st'.source
        ++ (if st'.has_options then [lit "LOCAL_SCAN_HAS_OPTIONS=yes\n"] else [])))) := by
  unfold patchLines at h
  cases hR : runLoop ⟨some c, some e, some s, true⟩ ls with
  | error e' => rw [hR] at h; exact absurd h (by simp)
  | ok q =>
    obtain ⟨st', lout⟩ := q
    rw [hR] at h
    dsimp only at h
    refine ⟨st', lout, rfl, ?_⟩
    rw [← Except.ok.inj h]
    simp [List.append_assoc]

theorem get?_append_low {α : Type} (l₁ l₂ : List α) (n : Nat) (h : n < l₁.length) :
    (l₁ ++ l₂).get? n = l₁.get? n :=
  List.get?_append h

theorem isEmpty_false_of_ne (l : List Char) (h : l ≠ []) : l.isEmpty = false := by
  cases l with
  | nil => exact absurd rfl h
  | cons a t => rfl

theorem mkCflags_cons2 (cfg : Config) :
    mkCflags cfg = '-' :: 'I' :: (cfg.INCLUDEPY ++ lit " " ++ cfg.CFLAGSFORSHARED) := by
  unfold mkCflags
  rw [show lit "-I" = '-' :: 'I' :: [] from rfl]
  simp

theorem mkCflags_ne (cfg : Config) : (mkCflags cfg).isEmpty = false := by
  rw [mkCflags_cons2]; rfl

theorem mkExtralibs_eq (cfg : Config) :
    mkExtralibs cfg = ((cfg.LDFLAGS ++ lit " -lpytho") ++ ['n']) ++ cfg.VERSION := by
  unfold mkExtralibs
  rw [show lit " -lpython" = lit " -lpytho" ++ ['n'] from rfl]
  simp

theorem mkExtralibs_ne (cfg : Config) : (mkExtralibs cfg).isEmpty = false := by
  apply isEmpty_false_of_ne
  rw [mkExtralibs_eq]
  simp

theorem strip_cons2_ne (a b : Char) (rest : PyStr) (ha : pyWs a = false) (hb : pyWs b = false) :
    strip (a :: b :: rest) ≠ [] := by
  unfold strip lstrip
  rw [List.dropWhile_cons, if_neg (by simp [ha])]
  have hform : a :: b :: rest = ([a] ++ [b]) ++ rest := by simp
  rw [hform, rstrip_append_nws [a] b hb rest]
  simp

theorem strip_mkCflags_ne (cfg : Config) : strip (mkCflags cfg) ≠ [] := by
  rw [mkCflags_cons2]
  exact strip_cons2_ne '-' 'I' _ (by decide) (by decide)

theorem rstrip_mkExtralibs_ne (cfg : Config) : rstrip (mkExtralibs cfg) ≠ [] := by
  rw [mkExtralibs_eq, rstrip_append_nws _ 'n' (by decide)]
  simp

theorem patchLines_cf_first (c e s : PyStr) (ls out : List PyStr)
    (hc : c.isEmpty = false) (h : patchLines c e s ls = Except.ok out)
    (i : Nat) (hi : i < ls.length)
    (hm : startswith (lit "CFLAGS=") (ls.get ⟨i, hi⟩) = true)
    (hfirst : ∀ k (hk : k < ls.length), k < i →
      startswith (lit "CFLAGS=") (ls.get ⟨k, hk⟩) = false) :
    out.get? i = some (rstrip (ls.get ⟨i, hi⟩) ++ lit " " ++ strip c ++ lit "\n") := by
  obtain ⟨st', lout, hR, rfl⟩ := patchLines_ok_elim c e s ls out h
  have hlen := runLoop_length _ _ _ _ hR
  rw [get?_append_low _ _ i (by rw [hlen]; exact hi)]
  exact runLoop_cf_first _ _ _ _ c hR rfl hc i hi hm hfirst

theorem patchLines_ex_first (c e s : PyStr) (ls out : List PyStr)
    (he : e.isEmpty = false) (h : patchLines c e s ls = Except.ok out)
    (i : Nat) (hi : i < ls.length)
    (hm : startswith (lit "EXTRALIBS=") (ls.get ⟨i, hi⟩) = true)
    (hfirst : ∀ k (hk : k < ls.length), k < i →
      startswith (lit "EXTRALIBS=") (ls.get ⟨k, hk⟩) = false) :
    out.get? i = some (rstrip (ls.get ⟨i, hi⟩) ++ lit " " ++ e ++ lit "\n") := by
  obtain ⟨st', lout, hR, rfl⟩ := patchLines_ok_elim c e s ls out h
  have hlen := runLoop_length _ _ _ _ hR
  rw [get?_append_low _ _ i (by rw [hlen]; exact hi)]
  exact runLoop_ex_first _ _ _ _ e hR rfl he i hi hm hfirst

theorem patchLines_sw_low (c e s : PyStr) (ls out : List PyStr)
    (h : patchLines c e s ls = Except.ok out) :
    ∀ j (hj : j < ls.length), ∃ lj, out.get? j = some lj ∧
      startswith (lit "CFLAGS=") lj = startswith (lit "CFLAGS=") (ls.get ⟨j, hj⟩) ∧
      startswith (lit "EXTRALIBS=") lj = startswith (lit "EXTRALIBS=") (ls.get ⟨j, hj⟩) ∧
      startswith (lit "LOCAL_SCAN_SOURCE=") lj
        = startswith (lit "LOCAL_SCAN_SOURCE=") (ls.get ⟨j, hj⟩) ∧
      startswith (lit "LOCAL_SCAN_HAS_OPTIONS=") lj
        = startswith (lit "LOCAL_SCAN_HAS_OPTIONS=") (ls.get ⟨j, hj⟩) := by
  obtain ⟨st', lout, hR, rfl⟩ := patchLines_ok_elim c e s ls out h
  have hlen := runLoop_length _ _ _ _ hR
  intro j hj
  rw [get?_append_low _ _ j (by rw [hlen]; exact hj)]
  exact runLoop_sw _ _ _ _ hR j hj

theorem patchLines_length_ge (c e s : PyStr) (ls out : List PyStr)
    (h : patchLines c e s ls = Except.ok out) : ls.length ≤ out.length := by
  obtain ⟨st', lout, hR, rfl⟩ := patchLines_ok_elim c e s ls out h
  have hlen := runLoop_length _ _ _ _ hR
  rw [List.length_append, hlen]
  exact Nat.le_add_right _ _

theorem appendVar_head_sw (key : PyStr) (v : Option PyStr) :
    ∀ l ∈ appendVar key v, startswith key l = true := by
  intro l hmem
  cases v with
  | none => simp [appendVar] at hmem
  | some x =>
    by_cases hx : x.isEmpty = true
    · simp [appendVar, hx] at hmem
    · have hx' : x.isEmpty = false := by simpa using hx
      simp only [appendVar, hx', if_false, Bool.false_eq_true, List.mem_singleton] at hmem
      subst hmem
      rw [List.append_assoc]
      exact startswith_append_self key _

theorem appendVar_some_ne (key : PyStr) (v : PyStr) (hv : v.isEmpty = false) :
    appendVar key (some v) = [key ++ v ++ lit "\n"] := by
  simp [appendVar, hv]

/-- A sample configuration used in concrete instances. -/
def cfgEx : Config := ⟨lit "/usr/include/py", lit "-fPIC", lit "-L/usr/lib", lit "2.2"⟩

/-- A second sample configuration with short values. -/
def cfgW : Config := ⟨lit "P", lit "Q", lit "L", lit "V"⟩

/-- The output of `patch_makefile` under `cfgEx` on an empty Makefile. -/
def outEmptyEx : List PyStr :=
  [lit "CFLAGS=-I/usr/include/py -fPIC\n",
   lit "EXTRALIBS=-L/usr/lib -lpython2.2\n",
   lit "LOCAL_SCAN_SOURCE=Local/expy_local_scan.c\n",
   lit "LOCAL_SCAN_HAS_OPTIONS=yes\n"]

/-- Claim C7: when the Makefile at `<build_dir>/Local/Makefile` does not
exist, `patch_makefile` fails with the file-not-found error before any write:
the filesystem slice is returned unchanged, so the output file is not created
and no symbolic link is made. -/
theorem c7_missing_input (cfg : Config) (fs : FS) (h : fs.makefile = none) :
    patch_makefile cfg fs = (fs, some OSError.fileNotFound) := by
  unfold patch_makefile
  rw [h]

theorem c7_missing_input_witness :
    patch_makefile cfgEx ⟨none, false, false⟩ = (⟨none, false, false⟩, some OSError.fileNotFound) :=
  c7_missing_input cfgEx ⟨none, false, false⟩ rfl

/-- Claim C10: the patched Makefile is written before the symlink step.  When
the symlink destination is occupied, `patch_makefile` raises the link error
with the Makefile already rewritten to the patched content (and not rolled
back), and the link not created. -/
theorem c10_write_precedes_link (cfg : Config) (fs : FS) (ls out : List PyStr)
    (hm : fs.makefile = some ls) (hp : patchMakefileLines cfg ls = Except.ok out)
    (hl : fs.linkOccupied = true) :
    patch_makefile cfg fs = ({ fs with makefile := some out }, some OSError.linkExists) := by
  simp [patch_makefile, hm, hp, hl]

theorem c10_write_precedes_link_witness :
    patch_makefile cfgEx ⟨some [], true, false⟩
      = (⟨some outEmptyEx, true, false⟩, some OSError.linkExists) :=
  c10_write_precedes_link cfgEx ⟨some [], true, false⟩ [] outEmptyEx rfl rfl rfl

/-- Claim C5: on a file in which no line starts with any recognized key
prefix, the output is the original lines unchanged and in order, followed by
exactly one appended line per key, in the order `CFLAGS`, `EXTRALIBS`,
`LOCAL_SCAN_SOURCE`, `LOCAL_SCAN_HAS_OPTIONS`. -/
theorem c5_no_match_appends (cfg : Config) (lines : List PyStr)
    (h : ∀ l ∈ lines, startswith (lit "CFLAGS=") l = false ∧
      startswith (lit "EXTRALIBS=") l = false ∧
      startswith (lit "LOCAL_SCAN_SOURCE=") l = false ∧
      startswith (lit "LOCAL_SCAN_HAS_OPTIONS=") l = false) :
    patchMakefileLines cfg lines = Except.ok (lines ++
      [lit "CFLAGS=" ++ mkCflags cfg ++ lit "\n",
       lit "EXTRALIBS=" ++ mkExtralibs cfg ++ lit "\n",
       lit "LOCAL_SCAN_SOURCE=Local/expy_local_scan.c\n",
       lit "LOCAL_SCAN_HAS_OPTIONS=yes\n"]) := by
  unfold patchMakefileLines patchLines
  rw [runLoop_id_of_no_match _ lines h]
  dsimp only
  rw [appendVar_some_ne _ _ (mkCflags_ne cfg), appendVar_some_ne _ _ (mkExtralibs_ne cfg),
    show appendVar (lit "LOCAL_SCAN_SOURCE=") (some sourceVal)
      = [lit "LOCAL_SCAN_SOURCE=Local/expy_local_scan.c\n"] from rfl]
  simp

theorem c5_no_match_appends_witness :
    patchMakefileLines cfgEx [lit "# comment\n"] = Except.ok ([lit "# comment\n"] ++
      [lit "CFLAGS=" ++ mkCflags cfgEx ++ lit "\n",
       lit "EXTRALIBS=" ++ mkExtralibs cfgEx ++ lit "\n",
       lit "LOCAL_SCAN_SOURCE=Local/expy_local_scan.c\n",
       lit "LOCAL_SCAN_HAS_OPTIONS=yes\n"]) :=
  c5_no_match_appends cfgEx [lit "# comment\n"] (by decide)

/-- Claim C6: whenever the in-memory patch of `patch_makefile` completes, the
written output contains at least one line starting with `"<KEY>="` for each of
the four recognized keys, obtained by editing an existing line or by
appending a new one. -/
theorem c6_all_keys_applied (cfg : Config) (lines out : List PyStr)
    (hout : patchMakefileLines cfg lines = Except.ok out) :
    (∃ l ∈ out, startswith (lit "CFLAGS=") l = true) ∧
    (∃ l ∈ out, startswith (lit "EXTRALIBS=") l = true) ∧
    (∃ l ∈ out, startswith (lit "LOCAL_SCAN_SOURCE=") l = true) ∧
    (∃ l ∈ out, startswith (lit "LOCAL_SCAN_HAS_OPTIONS=") l = true) := by
  obtain ⟨st', lout, hR, rfl⟩ := patchLines_ok_elim _ _ _ _ _ hout
  refine ⟨?_, ?_, ?_, ?_⟩
  · rcases runLoop_cf_state _ _ _ _ hR with h1 | ⟨-, lx, hmem, hsw⟩
    · refine ⟨lit "CFLAGS=" ++ mkCflags cfg ++ lit "\n", ?_, ?_⟩
      · have h1' : st'.cflags = some (mkCflags cfg) := h1
        rw [List.mem_append]
        refine Or.inr ?_
        rw [h1', appendVar_some_ne _ _ (mkCflags_ne cfg)]
        simp
      · rw [List.append_assoc]
        exact startswith_append_self _ _
    · exact ⟨lx, by rw [List.mem_append]; exact Or.inl hmem, hsw⟩
  · rcases runLoop_ex_state _ _ _ _ hR with h1 | ⟨-, lx, hmem, hsw⟩
    · refine ⟨lit "EXTRALIBS=" ++ mkExtralibs cfg ++ lit "\n", ?_, ?_⟩
      · have h1' : st'.extralibs = some (mkExtralibs cfg) := h1
        rw [List.mem_append]
        refine Or.inr ?_
        rw [h1', appendVar_some_ne _ _ (mkExtralibs_ne cfg)]
        simp
      · rw [List.append_assoc]
        exact startswith_append_self _ _
    · exact ⟨lx, by rw [List.mem_append]; exact Or.inl hmem, hsw⟩
  · rcases runLoop_src_state _ _ _ _ hR with h1 | ⟨-, lx, hmem, hsw⟩
    · refine ⟨lit "LOCAL_SCAN_SOURCE=Local/expy_local_scan.c\n", ?_, by decide⟩
      · have h1' : st'.source = some sourceVal := h1
        rw [List.mem_append]
        refine Or.inr ?_
        rw [h1', show appendVar (lit "LOCAL_SCAN_SOURCE=") (some sourceVal)
          = [lit "LOCAL_SCAN_SOURCE=Local/expy_local_scan.c\n"] from rfl]
        simp
    · exact ⟨lx, by rw [List.mem_append]; exact Or.inl hmem, hsw⟩
  · rcases runLoop_ho_state _ _ _ _ hR with h1 | ⟨-, lx, hmem, hsw⟩
    · refine ⟨lit "LOCAL_SCAN_HAS_OPTIONS=yes\n", ?_, by decide⟩
      have h1' : st'.has_options = true := h1
      rw [List.mem_append]
      refine Or.inr ?_
      rw [h1']
      simp
    · exact ⟨lx, by rw [List.mem_append]; exact Or.inl hmem, hsw⟩

theorem c6_all_keys_applied_witness :
    (∃ l ∈ outEmptyEx, startswith (lit "CFLAGS=") l = true) ∧
    (∃ l ∈ outEmptyEx, startswith (lit "EXTRALIBS=") l = true) ∧
    (∃ l ∈ outEmptyEx, startswith (lit "LOCAL_SCAN_SOURCE=") l = true) ∧
    (∃ l ∈ outEmptyEx, startswith (lit "LOCAL_SCAN_HAS_OPTIONS=") l = true) :=
  c6_all_keys_applied cfgEx [] outEmptyEx rfl

/-- Claim C9: with `INCLUDEPY = "/usr/include/py"` and
`CFLAGSFORSHARED = "-fPIC"` (and any `LDFLAGS`/`VERSION`), the input line
`"CFLAGS=-O2\n"` is rewritten to exactly
`"CFLAGS=-O2 -I/usr/include/py -fPIC\n"`. -/
theorem c9_cflags_example_line (ld v : PyStr) :
    patchMakefileLines ⟨lit "/usr/include/py", lit "-fPIC", ld, v⟩ [lit "CFLAGS=-O2\n"]
      = Except.ok [lit "CFLAGS=-O2 -I/usr/include/py -fPIC\n",
          lit "EXTRALIBS=" ++ (ld ++ lit " -lpython" ++ v) ++ lit "\n",
          lit "LOCAL_SCAN_SOURCE=Local/expy_local_scan.c\n",
          lit "LOCAL_SCAN_HAS_OPTIONS=yes\n"] := by
  have hP : patchLine
      ⟨some (mkCflags ⟨lit "/usr/include/py", lit "-fPIC", ld, v⟩),
       some (mkExtralibs ⟨lit "/usr/include/py", lit "-fPIC", ld, v⟩),
       some sourceVal, true⟩ (lit "CFLAGS=-O2\n")
      = Except.ok
        (⟨none, some (mkExtralibs ⟨lit "/usr/include/py", lit "-fPIC", ld, v⟩),
          some sourceVal, true⟩, lit "CFLAGS=-O2 -I/usr/include/py -fPIC\n") := by
    simp [patchLine,
      show stepCflags (some (mkCflags ⟨lit "/usr/include/py", lit "-fPIC", ld, v⟩))
          (lit "CFLAGS=-O2\n")
        = (none, lit "CFLAGS=-O2 -I/usr/include/py -fPIC\n") from rfl,
      stepExtralibs_no_match _ (lit "CFLAGS=-O2 -I/usr/include/py -fPIC\n") (by decide),
      stepSource_no_match _ (lit "CFLAGS=-O2 -I/usr/include/py -fPIC\n") (by decide),
      stepHasOptions_no_match true (lit "CFLAGS=-O2 -I/usr/include/py -fPIC\n") (by decide)]
  have hRun : runLoop
      ⟨some (mkCflags ⟨lit "/usr/include/py", lit "-fPIC", ld, v⟩),
       some (mkExtralibs ⟨lit "/usr/include/py", lit "-fPIC", ld, v⟩),
       some sourceVal, true⟩ [lit "CFLAGS=-O2\n"]
      = Except.ok
        (⟨none, some (mkExtralibs ⟨lit "/usr/include/py", lit "-fPIC", ld, v⟩),
          some sourceVal, true⟩, [lit "CFLAGS=-O2 -I/usr/include/py -fPIC\n"]) := by
    simp [runLoop, hP]
  unfold patchMakefileLines patchLines
  rw [hRun]
  dsimp only
  rw [appendVar_some_ne _ _ (mkExtralibs_ne ⟨lit "/usr/include/py", lit "-fPIC", ld, v⟩),
    show appendVar (lit "LOCAL_SCAN_SOURCE=") (some sourceVal)
      = [lit "LOCAL_SCAN_SOURCE=Local/expy_local_scan.c\n"] from rfl,
    show mkExtralibs ⟨lit "/usr/include/py", lit "-fPIC", ld, v⟩
      = ld ++ lit " -lpython" ++ v from rfl]
  simp [appendVar]

/-- Claim C1 (amended): for the additive keys `CFLAGS` and `EXTRALIBS`, at
most the first line starting with `"<KEY>="` is modified, and every later
line starting with the same key prefix is left byte-for-byte unchanged in the
output.  (The replace keys do not have this property: every
`LOCAL_SCAN_HAS_OPTIONS=` line is rewritten.) -/
theorem c1_additive_first_match_only (cfg : Config) (lines out : List PyStr) (k : PyStr)
    (hk : k = lit "CFLAGS=" ∨ k = lit "EXTRALIBS=")
    (hout : patchMakefileLines cfg lines = Except.ok out)
    (i j : Nat) (hi : i < lines.length) (hj : j < lines.length) (hij : i < j)
    (h1 : startswith k (lines.get ⟨i, hi⟩) = true)
    (h2 : startswith k (lines.get ⟨j, hj⟩) = true) :
    out.get? j = some (lines.get ⟨j, hj⟩) := by
  obtain ⟨st', lout, hR, rfl⟩ := patchLines_ok_elim _ _ _ _ _ hout
  have hlen := runLoop_length _ _ _ _ hR
  rw [get?_append_low _ _ j (by rw [hlen]; exact hj)]
  rcases hk with rfl | rfl
  · exact runLoop_cf_later _ _ _ _ hR i j hi hj hij h1 h2
  · exact runLoop_ex_later _ _ _ _ hR i j hi hj hij h1 h2

/-- The output of `patch_makefile` under `cfgEx` on a Makefile consisting of
two `LOCAL_SCAN_HAS_OPTIONS=no` lines. -/
def c1outEx : List PyStr :=
  [lit "LOCAL_SCAN_HAS_OPTIONS=yes\n", lit "LOCAL_SCAN_HAS_OPTIONS=yes\n",
   lit "CFLAGS=-I/usr/include/py -fPIC\n", lit "EXTRALIBS=-L/usr/lib -lpython2.2\n",
   lit "LOCAL_SCAN_SOURCE=Local/expy_local_scan.c\n"]

theorem c1_counterexample :
    patchMakefileLines cfgEx
        [lit "LOCAL_SCAN_HAS_OPTIONS=no\n", lit "LOCAL_SCAN_HAS_OPTIONS=no\n"]
      = Except.ok c1outEx ∧
    startswith (lit "LOCAL_SCAN_HAS_OPTIONS=") (lit "LOCAL_SCAN_HAS_OPTIONS=no\n") = true ∧
    c1outEx.get? 1 ≠ some (lit "LOCAL_SCAN_HAS_OPTIONS=no\n") :=
  ⟨rfl, by decide, by decide⟩

/-- The output of `patch_makefile` under `cfgW` on two `CFLAGS=` lines. -/
def c1outW : List PyStr :=
  [lit "CFLAGS=a -IP Q\n", lit "CFLAGS=b\n", lit "EXTRALIBS=L -lpythonV\n",
   lit "LOCAL_SCAN_SOURCE=Local/expy_local_scan.c\n", lit "LOCAL_SCAN_HAS_OPTIONS=yes\n"]

theorem c1_additive_first_match_only_witness : c1outW.get? 1 = some (lit "CFLAGS=b\n") :=
  c1_additive_first_match_only cfgW [lit "CFLAGS=a\n", lit "CFLAGS=b\n"] c1outW
    (lit "CFLAGS=") (Or.inl rfl) rfl 0 1 (by decide) (by decide) (by decide)
    (by decide) (by decide)

/-- Claim C2 (amended): for the first existing `CFLAGS=` line, the patched
line equals the original line with all trailing whitespace stripped, a single
space, the computed flags string with surrounding whitespace stripped, and a
newline. -/
theorem c2_first_cflags_rewrite (cfg : Config) (lines out : List PyStr) (i : Nat)
    (hi : i < lines.length) (hout : patchMakefileLines cfg lines = Except.ok out)
    (hm : startswith (lit "CFLAGS=") (lines.get ⟨i, hi⟩) = true)
    (hfirst : ∀ k (hk : k < lines.length), k < i →
      startswith (lit "CFLAGS=") (lines.get ⟨k, hk⟩) = false) :
    out.get? i
      = some (rstrip (lines.get ⟨i, hi⟩) ++ lit " " ++ strip (mkCflags cfg) ++ lit "\n") :=
  patchLines_cf_first _ _ _ _ _ (mkCflags_ne cfg) hout i hi hm hfirst

theorem c2_counterexample :
    patchMakefileLines cfgEx [lit "CFLAGS=-O2 \n"]
      = Except.ok [lit "CFLAGS=-O2 -I/usr/include/py -fPIC\n",
          lit "EXTRALIBS=-L/usr/lib -lpython2.2\n",
          lit "LOCAL_SCAN_SOURCE=Local/expy_local_scan.c\n",
          lit "LOCAL_SCAN_HAS_OPTIONS=yes\n"] ∧
    lit "CFLAGS=-O2 -I/usr/include/py -fPIC\n"
      ≠ specCflagsLine (lit "CFLAGS=-O2 \n") (mkCflags cfgEx) :=
  ⟨rfl, by decide⟩

/-- The output of `patch_makefile` under `cfgEx` on the single line
`"CFLAGS=-O2 \n"` (note the trailing space). -/
def c2outEx : List PyStr :=
  [lit "CFLAGS=-O2 -I/usr/include/py -fPIC\n",
   lit "EXTRALIBS=-L/usr/lib -lpython2.2\n",
   lit "LOCAL_SCAN_SOURCE=Local/expy_local_scan.c\n",
   lit "LOCAL_SCAN_HAS_OPTIONS=yes\n"]

theorem c2_first_cflags_rewrite_witness :
    c2outEx.get? 0
      = some (rstrip (lit "CFLAGS=-O2 \n") ++ lit " " ++ strip (mkCflags cfgEx) ++ lit "\n") :=
  c2_first_cflags_rewrite cfgEx [lit "CFLAGS=-O2 \n"] c2outEx 0 (by decide) rfl (by decide)
    (fun k hk hki => absurd hki (Nat.not_lt_zero k))

theorem filter_key_appendVar_ne (k key : PyStr) (v : Option PyStr)
    (hne : ∀ l, startswith key l = true → startswith k l = false) :
    (appendVar key v).filter (fun l => startswith k l) = [] := by
  rw [List.filter_eq_nil_iff]
  intro lx hmem
  simp [hne lx (appendVar_head_sw key v lx hmem)]

theorem filter_key_hoAppend (k : PyStr) (b : Bool)
    (hk : startswith k (lit "LOCAL_SCAN_HAS_OPTIONS=yes\n") = false) :
    (if b then [lit "LOCAL_SCAN_HAS_OPTIONS=yes\n"] else []).filter
      (fun l => startswith k l) = [] := by
  cases b <;> simp [hk]

/-- Claim C8: an additive key whose desired value is the empty string is
treated as already satisfied — every line matching it is left unmodified in
place, and no line for that key is appended.  The first conjunct covers
`cflags = ''`, the second `extralibs = ''`. -/
theorem c8_empty_additive_value :
    (∀ (e s : PyStr) (lines out : List PyStr), patchLines [] e s lines = Except.ok out →
      (∀ i (hi : i < lines.length), startswith (lit "CFLAGS=") (lines.get ⟨i, hi⟩) = true →
        out.get? i = some (lines.get ⟨i, hi⟩)) ∧
      out.filter (fun l => startswith (lit "CFLAGS=") l)
        = lines.filter (fun l => startswith (lit "CFLAGS=") l)) ∧
    (∀ (c s : PyStr) (lines out : List PyStr), patchLines c [] s lines = Except.ok out →
      (∀ i (hi : i < lines.length), startswith (lit "EXTRALIBS=") (lines.get ⟨i, hi⟩) = true →
        out.get? i = some (lines.get ⟨i, hi⟩)) ∧
      out.filter (fun l => startswith (lit "EXTRALIBS=") l)
        = lines.filter (fun l => startswith (lit "EXTRALIBS=") l)) := by
  constructor
  · intro e s lines out h
    obtain ⟨st', lout, hR, rfl⟩ := patchLines_ok_elim _ _ _ _ _ h
    have hlen := runLoop_length _ _ _ _ hR
    have ha : alive (⟨some [], some e, some s, true⟩ : LoopState).cflags = false := rfl
    constructor
    · intro i hi hm
      rw [get?_append_low _ _ i (by rw [hlen]; exact hi)]
      exact (runLoop_cf_dead _ _ _ _ hR ha).2 i hi hm
    · have hst' : st'.cflags = some [] := (runLoop_cf_dead _ _ _ _ hR ha).1
      rw [List.filter_append, runLoop_cf_dead_filter _ _ _ _ hR ha,
        List.filter_append, List.filter_append, List.filter_append]
      rw [hst', show appendVar (lit "CFLAGS=") (some []) = [] from rfl]
      rw [filter_key_appendVar_ne _ _ _ (fun l hl => sw_ex_not_cf l hl),
        filter_key_appendVar_ne _ _ _ (fun l hl => sw_src_not_cf l hl),
        filter_key_hoAppend _ _ (by decide)]
      simp
  · intro c s lines out h
    obtain ⟨st', lout, hR, rfl⟩ := patchLines_ok_elim _ _ _ _ _ h
    have hlen := runLoop_length _ _ _ _ hR
    have ha : alive (⟨some c, some [], some s, true⟩ : LoopState).extralibs = false := rfl
    constructor
    · intro i hi hm
      rw [get?_append_low _ _ i (by rw [hlen]; exact hi)]
      exact (runLoop_ex_dead _ _ _ _ hR ha).2 i hi hm
    · have hst' : st'.extralibs = some [] := (runLoop_ex_dead _ _ _ _ hR ha).1
      rw [List.filter_append, runLoop_ex_dead_filter _ _ _ _ hR ha,
        List.filter_append, List.filter_append, List.filter_append]
      rw [hst', show appendVar (lit "EXTRALIBS=") (some []) = [] from rfl]
      rw [filter_key_appendVar_ne _ _ _ (fun l hl => sw_cf_not_ex l hl),
        filter_key_appendVar_ne _ _ _ (fun l hl => sw_src_not_ex l hl),
        filter_key_hoAppend _ _ (by decide)]
      simp

/-- The output of the core patch routine with empty `cflags`, `extralibs`
value `"E"` and source value `"S"`, on a single `CFLAGS=` line. -/
def c8outW : List PyStr :=
  [lit "CFLAGS=-O2\n", lit "EXTRALIBS=E\n", lit "LOCAL_SCAN_SOURCE=S\n",
   lit "LOCAL_SCAN_HAS_OPTIONS=yes\n"]

theorem c8_empty_additive_value_witness :
    c8outW.filter (fun l => startswith (lit "CFLAGS=") l) = [lit "CFLAGS=-O2\n"] :=
  ((c8_empty_additive_value.1 (lit "E") (lit "S") [lit "CFLAGS=-O2\n"] c8outW rfl).2).trans
    (by decide)

theorem patchLines_src_filter (c e s : PyStr) (hs : s.isEmpty = false) (ls out : List PyStr)
    (h : patchLines c e s ls = Except.ok out) :
    out.filter (fun l => startswith (lit "LOCAL_SCAN_SOURCE=") l)
      = [lit "LOCAL_SCAN_SOURCE=" ++ s ++ lit "\n"] := by
  obtain ⟨st', lout, hR, rfl⟩ := patchLines_ok_elim _ _ _ _ _ h
  rw [List.filter_append, List.filter_append, List.filter_append, List.filter_append]
  rw [filter_key_appendVar_ne _ _ _ (fun l hl => sw_cf_not_src l hl),
    filter_key_appendVar_ne _ _ _ (fun l hl => sw_ex_not_src l hl),
    filter_key_hoAppend _ _ (by decide)]
  have hswline : startswith (lit "LOCAL_SCAN_SOURCE=")
      (lit "LOCAL_SCAN_SOURCE=" ++ s ++ lit "\n") = true := by
    have := startswith_src_line s
    simpa [List.append_assoc] using this
  rcases runLoop_src_some _ _ _ _ s hR rfl with ⟨h1, hfil⟩ | ⟨h1, hfil⟩
  · rw [hfil, h1, appendVar_some_ne _ _ hs]
    simp [startswith_src_line s]
  · rw [hfil, h1, show appendVar (lit "LOCAL_SCAN_SOURCE=") none = [] from rfl]
    simp

theorem patchLines_ho_single (c e s : PyStr) (ls out : List PyStr)
    (h : patchLines c e s ls = Except.ok out)
    (hcount : ls.countP (fun l => startswith (lit "LOCAL_SCAN_HAS_OPTIONS=") l) ≤ 1) :
    out.filter (fun l => startswith (lit "LOCAL_SCAN_HAS_OPTIONS=") l)
      = [lit "LOCAL_SCAN_HAS_OPTIONS=yes\n"] := by
  obtain ⟨st', lout, hR, rfl⟩ := patchLines_ok_elim _ _ _ _ _ h
  obtain ⟨hfil, hho⟩ := runLoop_ho_filter _ _ _ _ hR
  rw [List.filter_append, List.filter_append, List.filter_append, List.filter_append]
  rw [filter_key_appendVar_ne _ _ _ (fun l hl => sw_cf_not_ho l hl),
    filter_key_appendVar_ne _ _ _ (fun l hl => sw_ex_not_ho l hl),
    filter_key_appendVar_ne _ _ _ (fun l hl => sw_src_not_ho l hl)]
  by_cases hany : ls.any (fun l => startswith (lit "LOCAL_SCAN_HAS_OPTIONS=") l) = true
  · have hcnt1 : (ls.filter (fun l => startswith (lit "LOCAL_SCAN_HAS_OPTIONS=") l)).length
        = 1 := by
      obtain ⟨x, hx, hpx⟩ := List.any_eq_true.mp hany
      have hmem : x ∈ ls.filter (fun l => startswith (lit "LOCAL_SCAN_HAS_OPTIONS=") l) :=
        List.mem_filter.mpr ⟨hx, hpx⟩
      have hne : ls.filter (fun l => startswith (lit "LOCAL_SCAN_HAS_OPTIONS=") l) ≠ [] :=
        List.ne_nil_of_mem hmem
      have hpos : 0 < (ls.filter (fun l => startswith (lit "LOCAL_SCAN_HAS_OPTIONS=") l)).length :=
        List.length_pos.mpr hne
      rw [List.countP_eq_length_filter] at hcount
      omega
    obtain ⟨x, hx⟩ := List.length_eq_one.mp hcnt1
    have hho' : st'.has_options = false := by rw [hho]; simp [hany]
    rw [hfil, hx, hho']
    simp [show startswith (lit "LOCAL_SCAN_HAS_OPTIONS=")
      (lit "LOCAL_SCAN_HAS_OPTIONS=yes\n") = true from by decide]
  · have hany' : ls.any (fun l => startswith (lit "LOCAL_SCAN_HAS_OPTIONS=") l) = false := by
      simpa using hany
    have hnil : ls.filter (fun l => startswith (lit "LOCAL_SCAN_HAS_OPTIONS=") l) = [] := by
      rw [List.filter_eq_nil_iff]
      intro lx hmem
      have := List.any_eq_false.mp hany' lx hmem
      simpa using this
    have hho' : st'.has_options = true := by rw [hho]; simp [hany']
    rw [hfil, hnil, hho']
    simp [show startswith (lit "LOCAL_SCAN_HAS_OPTIONS=")
      (lit "LOCAL_SCAN_HAS_OPTIONS=yes\n") = true from by decide]

/-- Claim C4 (amended): for every input with at most one `LOCAL_SCAN_SOURCE=`
line and at most one `LOCAL_SCAN_HAS_OPTIONS=` line, patching once and
patching twice both leave exactly the single line
`LOCAL_SCAN_SOURCE=Local/expy_local_scan.c` as the `LOCAL_SCAN_SOURCE=`
content, and likewise the single line `LOCAL_SCAN_HAS_OPTIONS=yes`. -/
theorem c4_replace_keys_idem (cfg : Config) (lines out1 out2 : List PyStr)
    (hsrc : lines.countP (fun l => startswith (lit "LOCAL_SCAN_SOURCE=") l) ≤ 1)
    (hho : lines.countP (fun l => startswith (lit "LOCAL_SCAN_HAS_OPTIONS=") l) ≤ 1)
    (h1 : patchMakefileLines cfg lines = Except.ok out1)
    (h2 : patchMakefileLines cfg out1 = Except.ok out2) :
    out1.filter (fun l => startswith (lit "LOCAL_SCAN_SOURCE=") l)
      = [lit "LOCAL_SCAN_SOURCE=Local/expy_local_scan.c\n"] ∧
    out2.filter (fun l => startswith (lit "LOCAL_SCAN_SOURCE=") l)
      = [lit "LOCAL_SCAN_SOURCE=Local/expy_local_scan.c\n"] ∧
    out1.filter (fun l => startswith (lit "LOCAL_SCAN_HAS_OPTIONS=") l)
      = [lit "LOCAL_SCAN_HAS_OPTIONS=yes\n"] ∧
    out2.filter (fun l => startswith (lit "LOCAL_SCAN_HAS_OPTIONS=") l)
      = [lit "LOCAL_SCAN_HAS_OPTIONS=yes\n"] := by
  have h1' : patchLines (mkCflags cfg) (mkExtralibs cfg) sourceVal lines = Except.ok out1 := h1
  have h2' : patchLines (mkCflags cfg) (mkExtralibs cfg) sourceVal out1 = Except.ok out2 := h2
  have hs : sourceVal.isEmpty = false := by decide
  have hline : lit "LOCAL_SCAN_SOURCE=" ++ sourceVal ++ lit "\n"
      = lit "LOCAL_SCAN_SOURCE=Local/expy_local_scan.c\n" := rfl
  have e1 := patchLines_src_filter _ _ _ hs _ _ h1'
  have e2 := patchLines_src_filter _ _ _ hs _ _ h2'
  rw [hline] at e1 e2
  have f1 := patchLines_ho_single _ _ _ _ _ h1' hho
  have hcnt2 : out1.countP (fun l => startswith (lit "LOCAL_SCAN_HAS_OPTIONS=") l) ≤ 1 := by
    rw [List.countP_eq_length_filter, f1]
    simp
  have f2 := patchLines_ho_single _ _ _ _ _ h2' hcnt2
  exact ⟨e1, e2, f1, f2⟩

theorem c4_counterexample :
    patchMakefileLines cfgEx
        [lit "LOCAL_SCAN_HAS_OPTIONS=no\n", lit "LOCAL_SCAN_HAS_OPTIONS=no\n"]
      = Except.ok c1outEx ∧
    [lit "LOCAL_SCAN_HAS_OPTIONS=no\n", lit "LOCAL_SCAN_HAS_OPTIONS=no\n"].countP
        (fun l => startswith (lit "LOCAL_SCAN_SOURCE=") l) ≤ 1 ∧
    (c1outEx.filter (fun l => startswith (lit "LOCAL_SCAN_HAS_OPTIONS=") l)).length = 2 :=
  ⟨rfl, by decide, by decide⟩

/-- The result of patching `outEmptyEx` a second time under `cfgEx`. -/
def outEmptyEx2 : List PyStr :=
  [lit "CFLAGS=-I/usr/include/py -fPIC -I/usr/include/py -fPIC\n",
   lit "EXTRALIBS=-L/usr/lib -lpython2.2 -L/usr/lib -lpython2.2\n",
   lit "LOCAL_SCAN_SOURCE=Local/expy_local_scan.c\n",
   lit "LOCAL_SCAN_HAS_OPTIONS=yes\n"]

theorem c4_replace_keys_idem_witness :
    outEmptyEx.filter (fun l => startswith (lit "LOCAL_SCAN_SOURCE=") l)
      = [lit "LOCAL_SCAN_SOURCE=Local/expy_local_scan.c\n"] ∧
    outEmptyEx2.filter (fun l => startswith (lit "LOCAL_SCAN_SOURCE=") l)
      = [lit "LOCAL_SCAN_SOURCE=Local/expy_local_scan.c\n"] ∧
    outEmptyEx.filter (fun l => startswith (lit "LOCAL_SCAN_HAS_OPTIONS=") l)
      = [lit "LOCAL_SCAN_HAS_OPTIONS=yes\n"] ∧
    outEmptyEx2.filter (fun l => startswith (lit "LOCAL_SCAN_HAS_OPTIONS=") l)
      = [lit "LOCAL_SCAN_HAS_OPTIONS=yes\n"] :=
  c4_replace_keys_idem cfgEx [] outEmptyEx outEmptyEx2 (by decide) (by decide) rfl rfl

theorem c3_cf_case (cfg : Config) (lines out1 : List PyStr)
    (hout : patchMakefileLines cfg lines = Except.ok out1)
    (hcf : ∃ l ∈ lines, startswith (lit "CFLAGS=") l = true) :
    patchMakefileLines cfg out1 ≠ Except.ok out1 := by
  intro hEq
  have hlt : lines.findIdx (fun l => startswith (lit "CFLAGS=") l) < lines.length :=
    List.findIdx_lt_length_of_exists hcf
  set i := lines.findIdx (fun l => startswith (lit "CFLAGS=") l) with hidef
  have hm : startswith (lit "CFLAGS=") (lines.get ⟨i, hlt⟩) = true := List.findIdx_get
  have hfirst : ∀ k (hk : k < lines.length), k < i →
      startswith (lit "CFLAGS=") (lines.get ⟨k, hk⟩) = false := by
    intro k hk hki
    have := List.not_of_lt_findIdx hki
    simpa using this
  have hr1 := patchLines_cf_first _ _ _ _ _ (mkCflags_ne cfg) hout i hlt hm hfirst
  have hlen1 : lines.length ≤ out1.length := patchLines_length_ge _ _ _ _ _ hout
  have hi1 : i < out1.length := Nat.lt_of_lt_of_le hlt hlen1
  have hg : out1.get ⟨i, hi1⟩
      = rstrip (lines.get ⟨i, hlt⟩) ++ lit " " ++ strip (mkCflags cfg) ++ lit "\n" := by
    have h' := List.get?_eq_get hi1
    rw [hr1] at h'
    exact (Option.some.inj h').symm
  have hm1 : startswith (lit "CFLAGS=") (out1.get ⟨i, hi1⟩) = true := by
    rw [hg]
    have := sw_cf_rewrite (lines.get ⟨i, hlt⟩)
      (lit " " ++ (strip (mkCflags cfg) ++ lit "\n")) hm
    simpa [List.append_assoc] using this
  have hfirst1 : ∀ k (hk : k < out1.length), k < i →
      startswith (lit "CFLAGS=") (out1.get ⟨k, hk⟩) = false := by
    intro k hk hki
    have hkl : k < lines.length := Nat.lt_trans hki hlt
    obtain ⟨lk, hlk, hswk, -, -, -⟩ := patchLines_sw_low _ _ _ _ _ hout k hkl
    have hgk := List.get?_eq_get hk
    rw [hlk] at hgk
    obtain hlkeq := Option.some.inj hgk
    rw [← hlkeq, hswk]
    exact hfirst k hkl hki
  have hr2 := patchLines_cf_first _ _ _ _ _ (mkCflags_ne cfg) hEq i hi1 hm1 hfirst1
  rw [hr1, hg] at hr2
  have heq2 := Option.some.inj hr2
  have hc'ne : rstrip (strip (mkCflags cfg)) ≠ [] := by
    rw [rstrip_strip]; exact strip_mkCflags_ne cfg
  have hrr : rstrip (rstrip (lines.get ⟨i, hlt⟩) ++ lit " " ++ strip (mkCflags cfg) ++ lit "\n")
      = rstrip (lines.get ⟨i, hlt⟩) ++ lit " " ++ strip (mkCflags cfg) := by
    rw [rstrip_append_newline, rstrip_append_of_ne_nil _ _ hc'ne, rstrip_strip]
  rw [hrr] at heq2
  have hlencontr := congrArg List.length heq2
  simp only [List.length_append, show (lit " ").length = 1 from rfl,
    show (lit "\n").length = 1 from rfl] at hlencontr
  omega

theorem c3_ex_case (cfg : Config) (lines out1 : List PyStr)
    (hout : patchMakefileLines cfg lines = Except.ok out1)
    (hexm : ∃ l ∈ lines, startswith (lit "EXTRALIBS=") l = true) :
    patchMakefileLines cfg out1 ≠ Except.ok out1 := by
  intro hEq
  have hlt : lines.findIdx (fun l => startswith (lit "EXTRALIBS=") l) < lines.length :=
    List.findIdx_lt_length_of_exists hexm
  set i := lines.findIdx (fun l => startswith (lit "EXTRALIBS=") l) with hidef
  have hm : startswith (lit "EXTRALIBS=") (lines.get ⟨i, hlt⟩) = true := List.findIdx_get
  have hfirst : ∀ k (hk : k < lines.length), k < i →
      startswith (lit "EXTRALIBS=") (lines.get ⟨k, hk⟩) = false := by
    intro k hk hki
    have := List.not_of_lt_findIdx hki
    simpa using this
  have hr1 := patchLines_ex_first _ _ _ _ _ (mkExtralibs_ne cfg) hout i hlt hm hfirst
  have hlen1 : lines.length ≤ out1.length := patchLines_length_ge _ _ _ _ _ hout
  have hi1 : i < out1.length := Nat.lt_of_lt_of_le hlt hlen1
  have hg : out1.get ⟨i, hi1⟩
      = rstrip (lines.get ⟨i, hlt⟩) ++ lit " " ++ mkExtralibs cfg ++ lit "\n" := by
    have h' := List.get?_eq_get hi1
    rw [hr1] at h'
    exact (Option.some.inj h').symm
  have hm1 : startswith (lit "EXTRALIBS=") (out1.get ⟨i, hi1⟩) = true := by
    rw [hg]
    have := sw_ex_rewrite (lines.get ⟨i, hlt⟩)
      (lit " " ++ (mkExtralibs cfg ++ lit "\n")) hm
    simpa [List.append_assoc] using this
  have hfirst1 : ∀ k (hk : k < out1.length), k < i →
      startswith (lit "EXTRALIBS=") (out1.get ⟨k, hk⟩) = false := by
    intro k hk hki
    have hkl : k < lines.length := Nat.lt_trans hki hlt
    obtain ⟨lk, hlk, -, hswk, -, -⟩ := patchLines_sw_low _ _ _ _ _ hout k hkl
    have hgk := List.get?_eq_get hk
    rw [hlk] at hgk
    obtain hlkeq := Option.some.inj hgk
    rw [← hlkeq, hswk]
    exact hfirst k hkl hki
  have hr2 := patchLines_ex_first _ _ _ _ _ (mkExtralibs_ne cfg) hEq i hi1 hm1 hfirst1
  rw [hr1, hg] at hr2
  have heq2 := Option.some.inj hr2
  have hrr : rstrip (rstrip (lines.get ⟨i, hlt⟩) ++ lit " " ++ mkExtralibs cfg ++ lit "\n")
      = rstrip (lines.get ⟨i, hlt⟩) ++ lit " " ++ rstrip (mkExtralibs cfg) := by
    rw [rstrip_append_newline, rstrip_append_of_ne_nil _ _ (rstrip_mkExtralibs_ne cfg)]
  rw [hrr] at heq2
  have hlencontr := congrArg List.length heq2
  simp only [List.length_append, show (lit " ").length = 1 from rfl,
    show (lit "\n").length = 1 from rfl] at hlencontr
  omega

/-- Claim C3: patching is not idempotent on the additive keys.  On any input
containing a `CFLAGS=` or `EXTRALIBS=` line, running the patch a second time
on the output appends the flags again, so the twice-patched lines differ from
the once-patched lines. -/
theorem c3_not_idempotent (cfg : Config) (lines out1 : List PyStr)
    (hout : patchMakefileLines cfg lines = Except.ok out1)
    (hex : ∃ l ∈ lines, startswith (lit "CFLAGS=") l = true ∨
      startswith (lit "EXTRALIBS=") l = true) :
    patchMakefileLines cfg out1 ≠ Except.ok out1 := by
  by_cases hcf : ∃ l ∈ lines, startswith (lit "CFLAGS=") l = true
  · exact c3_cf_case cfg lines out1 hout hcf
  · have hexx : ∃ l ∈ lines, startswith (lit "EXTRALIBS=") l = true := by
      obtain ⟨l, hmem, hk⟩ := hex
      rcases hk with hk | hk
      · exact absurd ⟨l, hmem, hk⟩ hcf
      · exact ⟨l, hmem, hk⟩
    exact c3_ex_case cfg lines out1 hout hexx

/-- The output of `patch_makefile` under `cfgW` on a single `CFLAGS=` line. -/
def c3outW : List PyStr :=
  [lit "CFLAGS=a -IP Q\n", lit "EXTRALIBS=L -lpythonV\n",
   lit "LOCAL_SCAN_SOURCE=Local/expy_local_scan.c\n", lit "LOCAL_SCAN_HAS_OPTIONS=yes\n"]

theorem c3_not_idempotent_witness : patchMakefileLines cfgW c3outW ≠ Except.ok c3outW :=
  c3_not_idempotent cfgW [lit "CFLAGS=a\n"] c3outW rfl
    ⟨lit "CFLAGS=a\n", by decide, Or.inl (by decide)⟩
